import Mathlib

/-!
# Verification of the Image-hack document model, history engine,
# z-order enforcement and generation retry loop

Shallow embedding of the claim-relevant parts of the repository:

* `src/src/stores/useFrameStore.ts` — the document model (frames, layers)
  and all its mutation / selection / history actions;
* the history store (`useHistoryStore`) — bounded past/future stacks of
  deep-cloned frame snapshots;
* `enforceZOrder` from `src/src/components/canvas/InfiniteCanvas.tsx`
  together with `getFrameFromCanvas` / `getLayerFromCanvas` from
  `src/src/utils/fabricHelpers.ts`;
* the retry/backoff/cancellation loop of `PollinationsProvider.generateImage`.

JavaScript numbers are modelled as `Int` (no claim depends on fractional
values; `Math.round` is the identity on integers).  `JSON.parse(JSON.stringify(x))`
deep cloning is the identity on this pure data.  `nanoid()` and
`new Date().toISOString()` are modelled as explicit arguments.  Functions that
`throw` in the source return `Except String`; accessors that may return
`undefined` return `Option`.
-/

namespace ImageHack

/-- JavaScript `v || d` for an optional number: `undefined` and `0` are falsy. -/
def jsOrInt (v : Option Int) (d : Int) : Int :=
  match v with
  | none => d
  | some x => if x == 0 then d else x

/-- JavaScript `v || d` for an optional string: `undefined` and `""` are falsy. -/
def jsOrStr (v : Option String) (d : String) : String :=
  match v with
  | none => d
  | some x => if x == "" then d else x

/-- `Array.prototype.findIndex`: index of first match, `-1` if none. -/
def jsFindIndex (p : α → Bool) (l : List α) : Int :=
  match l.findIdx? p with
  | some n => (n : Int)
  | none => -1

/-- Normalise a JS `Array.prototype.splice` start argument: negative counts
from the end (clamped at 0), too large clamps to the length. -/
def jsSpliceIndex (len : Nat) (start : Int) : Nat :=
  if start < 0 then (max ((len : Int) + start) 0).toNat else min start.toNat len

/-- `l.splice(start, 0, a)`: insert `a` at the (normalised) position. -/
def jsSpliceInsert (l : List α) (start : Int) (a : α) : List α :=
  let k := jsSpliceIndex l.length start
  l.take k ++ a :: l.drop k

/-- `l.splice(start, 1, ...items)`: replace one element at the (normalised)
position by `items`. -/
def jsSpliceReplace (l : List α) (start : Int) (items : List α) : List α :=
  let k := jsSpliceIndex l.length start
  l.take k ++ items ++ l.drop (k + 1)

/-! ## Document model (`src/types`) -/

/-- The scalar fields of a `Layer` (src/types/layer.ts).  The kind-specific
metadata payloads (`aiMetadata`, `sketchMetadata`) are opaque to every claim
and are carried as an opaque optional payload string. -/
structure LayerData where
  id : String
  name : String
  ty : String
  visible : Bool
  locked : Bool
  opacity : Int
  blendMode : String
  x : Int
  y : Int
  width : Int
  height : Int
  rotation : Int
  scaleX : Int
  scaleY : Int
  imageUrl : Option String
  aiMetadata : Option String

/-- A `Layer`: scalar data plus the optional `children` array of a group
(`undefined` for non-groups, possibly an empty array — JS distinguishes the
two, and `ungroupLayers` tests `!groupLayer.children`). -/
inductive Layer where
  | mk (data : LayerData) (children : Option (List Layer)) : Layer

def Layer.data : Layer → LayerData
  | .mk d _ => d

def Layer.children : Layer → Option (List Layer)
  | .mk _ c => c

def Layer.id (l : Layer) : String := l.data.id

def Layer.x (l : Layer) : Int := l.data.x

def Layer.y (l : Layer) : Int := l.data.y

/-- `ExportSettings` (src/types, part_000). -/
structure ExportSettings where
  format : String
  scale : Int

/-- `Frame` (src/types, part_000). -/
structure Frame where
  id : String
  name : String
  x : Int
  y : Int
  width : Int
  height : Int
  backgroundColor : String
  layers : List Layer
  visible : Bool
  locked : Bool
  clipContent : Bool
  exportSettings : ExportSettings
  createdAt : String
  updatedAt : String

/-- `FramePreset` (src/types, part_000); the `category` field is irrelevant
to the store logic. -/
structure FramePreset where
  name : String
  width : Int
  height : Int

/-! ## History store (`useHistoryStore`, src/unnamed/part_008) -/

def MAX_HISTORY_SIZE : Nat := 50

structure HistoryStore where
  past : List (List Frame)
  future : List (List Frame)

/-- `pushState`: append a (deep-cloned) snapshot, evict the oldest entry when
the cap is exceeded (`newPast.shift()`), clear `future`. -/
def pushState (frames : List Frame) (h : HistoryStore) : HistoryStore :=
  let newPast := h.past ++ [frames]
  let newPast := if newPast.length > MAX_HISTORY_SIZE then newPast.tail else newPast
  { past := newPast, future := [] }

/-- `useHistoryStore.undo(currentFrames)`: returns the popped snapshot and the
updated store (`null` and unchanged store when `past` is empty). -/
def histUndo (current : List Frame) (h : HistoryStore) :
    Option (List Frame) × HistoryStore :=
  if h.past.isEmpty then (none, h)
  else (h.past.getLast?, { past := h.past.dropLast, future := current :: h.future })

/-- `useHistoryStore.redo()`: symmetric pop from `future` onto `past`. -/
def histRedo (h : HistoryStore) : Option (List Frame) × HistoryStore :=
  match h.future with
  | [] => (none, h)
  | next :: rest => (some next, { past := h.past ++ [next], future := rest })

/-! ## Frame store state (`useFrameStore.ts`) -/

structure FrameStore where
  frames : List Frame
  selectedFrameId : Option String
  selectedLayerIds : List String
  expandedFrameIds : List String

/-- The frame store together with the history store it mutates. -/
structure AppState where
  store : FrameStore
  history : HistoryStore

/-- `getFrame`: first frame with the given id, `undefined` if none. -/
def getFrame (s : FrameStore) (frameId : String) : Option Frame :=
  s.frames.find? (fun f => f.id == frameId)

/-- The recursive `findLayer` helper inside `getLayer`: scans the list, and
descends into `children` when present. -/
def findLayer (layerId : String) : List Layer → Option Layer
  | [] => none
  | Layer.mk d cs :: rest =>
    if d.id == layerId then some (Layer.mk d cs)
    else
      match cs with
      | some children =>
        match findLayer layerId children with
        | some found => some found
        | none => findLayer layerId rest
      | none => findLayer layerId rest

/-- `getLayer`: recursive search (including group children) in the frame. -/
def getLayer (s : FrameStore) (frameId layerId : String) : Option Layer :=
  match getFrame s frameId with
  | none => none
  | some frame => findLayer layerId frame.layers

/-- JS-`Set` add: append if absent (insertion order preserved). -/
def jsSetAdd (l : List String) (x : String) : List String :=
  if l.contains x then l else l ++ [x]

/-! ## Frame actions

The DOM environment consulted by `addFrame` when centring the first frame
(`document.querySelector(...)` / `window.innerWidth`). -/

structure DomEnv where
  canvasContainer : Option (Int × Int)
  windowInnerWidth : Int
  windowInnerHeight : Int

/-- `addFrame(preset?, position?)`.  `frameId` stands for the `nanoid()` result
and `now` for `new Date().toISOString()`.  Pushes the pre-mutation snapshot,
builds the new frame (centring the first frame from the DOM environment when no
position is given), appends it, selects it and auto-expands it.  Returns the
new frame id. -/
def addFrame (preset : Option FramePreset) (position : Option (Int × Int))
    (env : DomEnv) (frameId : String) (now : String) (s : AppState) :
    String × AppState :=
  let history := pushState s.store.frames s.history
  let frameWidth := jsOrInt (preset.map (·.width)) 1920
  let frameHeight := jsOrInt (preset.map (·.height)) 1080
  let frameX := jsOrInt (position.map (·.1)) 100
  let frameY := jsOrInt (position.map (·.2)) 100
  let (frameX, frameY) :=
    if position.isNone && s.store.frames.length == 0 then
      match env.canvasContainer with
      | some (cw, ch) =>
        (max 50 ((cw - frameWidth) / 2), max 50 ((ch - frameHeight) / 2))
      | none =>
        (max 50 ((env.windowInnerWidth - 320 - frameWidth) / 2),
         max 50 ((env.windowInnerHeight - 56 - frameHeight) / 2))
    else (frameX, frameY)
  let newFrame : Frame :=
    { id := frameId
      name := jsOrStr (preset.map (·.name))
        ("Frame " ++ toString (s.store.frames.length + 1))
      x := frameX, y := frameY
      width := frameWidth, height := frameHeight
      backgroundColor := "#ffffff"
      layers := []
      visible := true, locked := false, clipContent := true
      exportSettings := { format := "png", scale := 1 }
      createdAt := now, updatedAt := now }
  (frameId,
   { store :=
       { s.store with
           frames := s.store.frames ++ [newFrame]
           selectedFrameId := some frameId
           expandedFrameIds := jsSetAdd s.store.expandedFrameIds frameId }
     history := history })

/-- `deleteFrame(frameId)`.  No existence check: pushes history, then filters
the frame out, clearing selection when the deleted frame was selected. -/
def deleteFrame (frameId : String) (s : AppState) : AppState :=
  let history := pushState s.store.frames s.history
  let wasSelected := s.store.selectedFrameId == some frameId
  { store :=
      { frames := s.store.frames.filter (fun f => !(f.id == frameId))
        selectedFrameId := if wasSelected then none else s.store.selectedFrameId
        selectedLayerIds := if wasSelected then [] else s.store.selectedLayerIds
        expandedFrameIds := s.store.expandedFrameIds.filter (fun i => !(i == frameId)) }
    history := history }

/-- `Partial<Frame>` as accepted by `updateFrame`. -/
structure FramePatch where
  name : Option String := none
  x : Option Int := none
  y : Option Int := none
  width : Option Int := none
  height : Option Int := none
  backgroundColor : Option String := none
  visible : Option Bool := none
  locked : Option Bool := none
  clipContent : Option Bool := none

def applyFramePatch (p : FramePatch) (now : String) (f : Frame) : Frame :=
  { f with
      name := p.name.getD f.name
      x := p.x.getD f.x, y := p.y.getD f.y
      width := p.width.getD f.width, height := p.height.getD f.height
      backgroundColor := p.backgroundColor.getD f.backgroundColor
      visible := p.visible.getD f.visible
      locked := p.locked.getD f.locked
      clipContent := p.clipContent.getD f.clipContent
      updatedAt := now }

/-- `updateFrame(frameId, updates)`: no existence check, no history push. -/
def updateFrame (frameId : String) (p : FramePatch) (now : String)
    (s : AppState) : AppState :=
  { s with store :=
      { s.store with frames :=
          s.store.frames.map (fun f =>
            if f.id == frameId then applyFramePatch p now f else f) } }

/-- `selectFrame(frameId)`: a missing frame clears the whole selection; in
every case the layer selection is cleared. -/
def selectFrame (frameId : Option String) (s : FrameStore) : FrameStore :=
  match frameId with
  | some fid =>
    if (getFrame s fid).isNone then
      { s with selectedFrameId := none, selectedLayerIds := [] }
    else
      { s with selectedFrameId := some fid, selectedLayerIds := [] }
  | none => { s with selectedFrameId := none, selectedLayerIds := [] }

/-! ## Layer actions -/

/-- `Partial<Layer>` as accepted by `addLayer`. -/
structure LayerInit where
  name : Option String := none
  ty : Option String := none
  visible : Option Bool := none
  locked : Option Bool := none
  opacity : Option Int := none
  blendMode : Option String := none
  x : Option Int := none
  y : Option Int := none
  width : Option Int := none
  height : Option Int := none
  rotation : Option Int := none
  scaleX : Option Int := none
  scaleY : Option Int := none
  imageUrl : Option String := none
  aiMetadata : Option String := none

/-- `addLayer(frameId, layerData)`: throws when the frame is missing; pushes
history; builds the layer with JS-falsy defaulting (`||`) exactly as the
source; appends it to the frame and selects it.  Returns the new layer id. -/
def addLayer (frameId : String) (layerId : String) (init : LayerInit)
    (now : String) (s : AppState) : Except String (String × AppState) :=
  match getFrame s.store frameId with
  | none => Except.error ("Cannot add layer: Frame " ++ frameId ++ " not found")
  | some _ =>
    let history := pushState s.store.frames s.history
    let defaultName :=
      "Layer " ++ toString
        ((((getFrame s.store frameId).map (fun f => f.layers.length)).getD 0) + 1)
    let newLayer : Layer := Layer.mk
      { id := layerId
        name := jsOrStr init.name defaultName
        ty := jsOrStr init.ty "image"
        visible := init.visible.getD true
        locked := init.locked.getD false
        opacity := jsOrInt init.opacity 100
        blendMode := jsOrStr init.blendMode "normal"
        x := jsOrInt init.x 0, y := jsOrInt init.y 0
        width := jsOrInt init.width 100, height := jsOrInt init.height 100
        rotation := jsOrInt init.rotation 0
        scaleX := jsOrInt init.scaleX 1, scaleY := jsOrInt init.scaleY 1
        imageUrl := init.imageUrl
        aiMetadata := init.aiMetadata } none
    Except.ok (layerId,
      { store :=
          { s.store with
              frames := s.store.frames.map (fun f =>
                if f.id == frameId then
                  { f with layers := f.layers ++ [newLayer], updatedAt := now }
                else f)
              selectedLayerIds := [layerId] }
        history := history })

/-- `deleteLayer(frameId, layerId)`: throws when the frame or the layer (found
by recursive search) is missing; pushes history; filters the layer out of the
frame's top-level list and out of the selection.  (The engine-side
`removeLayerFromCanvas` call acts on the external canvas, not on this state.) -/
def deleteLayer (frameId layerId : String) (now : String) (s : AppState) :
    Except String AppState :=
  match getFrame s.store frameId with
  | none => Except.error ("Cannot delete layer: Frame " ++ frameId ++ " not found")
  | some _ =>
    match getLayer s.store frameId layerId with
    | none => Except.error
        ("Cannot delete layer: Layer " ++ layerId ++ " not found in frame " ++ frameId)
    | some _ =>
      let history := pushState s.store.frames s.history
      Except.ok
        { store :=
            { s.store with
                frames := s.store.frames.map (fun f =>
                  if f.id == frameId then
                    { f with
                        layers := f.layers.filter (fun l => !(l.id == layerId))
                        updatedAt := now }
                  else f)
                selectedLayerIds :=
                  s.store.selectedLayerIds.filter (fun i => !(i == layerId)) }
          history := history }

/-- The subset of `Partial<Layer>` fields the claim-relevant callers pass to
`updateLayer` (`{...l, ...updates}` overwrites present fields verbatim). -/
structure LayerPatch where
  name : Option String := none
  visible : Option Bool := none
  locked : Option Bool := none
  opacity : Option Int := none
  x : Option Int := none
  y : Option Int := none
  width : Option Int := none
  height : Option Int := none

def applyLayerPatch (p : LayerPatch) (l : Layer) : Layer :=
  Layer.mk
    { l.data with
        name := p.name.getD l.data.name
        visible := p.visible.getD l.data.visible
        locked := p.locked.getD l.data.locked
        opacity := p.opacity.getD l.data.opacity
        x := p.x.getD l.data.x, y := p.y.getD l.data.y
        width := p.width.getD l.data.width, height := p.height.getD l.data.height }
    l.children

/-- `updateLayer(frameId, layerId, updates)`: throws when frame or layer is
missing; merges the patch into the matching top-level layer; no history push. -/
def updateLayer (frameId layerId : String) (p : LayerPatch) (now : String)
    (s : AppState) : Except String AppState :=
  match getFrame s.store frameId with
  | none => Except.error ("Cannot update layer: Frame " ++ frameId ++ " not found")
  | some _ =>
    match getLayer s.store frameId layerId with
    | none => Except.error
        ("Cannot update layer: Layer " ++ layerId ++ " not found in frame " ++ frameId)
    | some _ =>
      Except.ok
        { s with store :=
            { s.store with frames :=
                s.store.frames.map (fun f =>
                  if f.id == frameId then
                    { f with
                        layers := f.layers.map (fun l =>
                          if l.id == layerId then applyLayerPatch p l else l)
                        updatedAt := now }
                  else f) } }

/-- `reorderLayers(frameId, layerIds)`: rebuilds the frame's layer list as
`layerIds.map(find).filter(Boolean)` — ids with no matching layer are skipped
and layers not mentioned are dropped.  No existence check, no history push. -/
def reorderLayers (frameId : String) (layerIds : List String) (now : String)
    (s : AppState) : AppState :=
  { s with store :=
      { s.store with frames :=
          s.store.frames.map (fun f =>
            if f.id == frameId then
              { f with
                  layers := layerIds.filterMap
                    (fun i => f.layers.find? (fun l => l.id == i))
                  updatedAt := now }
            else f) } }

/-- `selectLayers(layerIds)`: when a frame is selected and the list is
non-empty, keep only the ids owned by that frame's top-level layer list;
every other path clears the layer selection.  The selected frame id is never
changed. -/
def selectLayers (layerIds : List String) (s : FrameStore) : FrameStore :=
  match s.selectedFrameId with
  | some fid =>
    if layerIds.length > 0 then
      match getFrame s fid with
      | some frame =>
        { s with selectedLayerIds :=
            layerIds.filter (fun i => frame.layers.any (fun l => l.id == i)) }
      | none => { s with selectedLayerIds := [] }
    else { s with selectedLayerIds := [] }
  | none => { s with selectedLayerIds := [] }

/-- `toggleLayerVisibility(frameId, layerId)`: missing frame or layer is a
silent no-op.  `canvasPos` models `getLayerFromCanvas(canvas, layerId)`'s live
`left`/`top` when a canvas is available (`none` = no canvas or no object).  On
integer coordinates the source's `Math.abs(d) > 0.5` drift test is `d ≠ 0`.
Both branches go through `updateLayer`, which never pushes history (and cannot
throw here since frame and layer were just validated). -/
def toggleLayerVisibility (frameId layerId : String)
    (canvasPos : Option (Int × Int)) (now : String) (s : AppState) : AppState :=
  match getLayer s.store frameId layerId, getFrame s.store frameId with
  | some layer, some frame =>
    let fallback :=
      match updateLayer frameId layerId
          { visible := some (!layer.data.visible) } now s with
      | Except.ok s' => s'
      | Except.error _ => s
    (match canvasPos with
     | some (currentLeft, currentTop) =>
       let currentX := currentLeft - frame.x
       let currentY := currentTop - frame.y
       if currentX - layer.x ≠ 0 ∨ currentY - layer.y ≠ 0 then
         match updateLayer frameId layerId
             { x := some currentX, y := some currentY
               visible := some (!layer.data.visible) } now s with
         | Except.ok s' => s'
         | Except.error _ => s
       else fallback
     | none => fallback)
  | _, _ => s

/-- `toggleLayerLock(frameId, layerId)`: silent no-op when the layer is
missing; otherwise flips `locked` through `updateLayer` (no history push). -/
def toggleLayerLock (frameId layerId : String) (now : String) (s : AppState) :
    AppState :=
  match getLayer s.store frameId layerId with
  | some layer =>
    match updateLayer frameId layerId
        { locked := some (!layer.data.locked) } now s with
    | Except.ok s' => s'
    | Except.error _ => s
  | none => s

/-- `Math.min(...l)` on a non-empty list (the empty case is unreachable in
`groupLayers`, which requires at least two layers). -/
def intMin : List Int → Int
  | [] => 0
  | x :: xs => xs.foldl min x

/-- `Math.max(...l)` on a non-empty list. -/
def intMax : List Int → Int
  | [] => 0
  | x :: xs => xs.foldl max x

/-- The layers of `frame` resolved by `groupLayers` from the given ids
(`layerIds.map(find).filter(Boolean)`). -/
def layersToGroupOf (frame : Frame) (layerIds : List String) : List Layer :=
  layerIds.filterMap (fun i => frame.layers.find? (fun l => l.id == i))

/-- The group layer `groupLayers` builds: bounds of the resolved layers, the
resolved layers as children with group-relative coordinates. -/
def groupLayerOf (frame : Frame) (layerIds : List String) (groupId : String) :
    Layer :=
  let layersToGroup := layersToGroupOf frame layerIds
  let left := intMin (layersToGroup.map (fun l => l.x))
  let top := intMin (layersToGroup.map (fun l => l.y))
  let right := intMax (layersToGroup.map (fun l => l.x + l.data.width))
  let bottom := intMax (layersToGroup.map (fun l => l.y + l.data.height))
  Layer.mk
    { id := groupId
      name := "Group " ++ toString
        ((frame.layers.filter (fun l => l.data.ty == "group")).length + 1)
      ty := "group"
      visible := true, locked := false
      opacity := 100, blendMode := "normal"
      x := left, y := top
      width := right - left, height := bottom - top
      rotation := 0, scaleX := 1, scaleY := 1
      imageUrl := none, aiMetadata := none }
    (some (layersToGroup.map (fun l =>
      Layer.mk { l.data with x := l.data.x - left, y := l.data.y - top }
        l.children)))

/-- `groupLayers(frameId, layerIds)`.  Throws when the frame is missing or
fewer than two ids are given; pushes history; throws when fewer than two of
the ids resolve to layers (the source performs this check after the push, so
that error path leaves a stray history entry in the live store).  Builds the
group from the bounds of the resolved layers, makes their coordinates
group-relative, removes them from the frame and splices the group in at the
index of the first id.  Returns the group id. -/
def groupLayers (frameId : String) (layerIds : List String) (groupId : String)
    (now : String) (s : AppState) : Except String (String × AppState) :=
  let frameOpt := getFrame s.store frameId
  if frameOpt.isNone || layerIds.length < 2 then
    Except.error "Cannot group: Need at least 2 layers to group"
  else
    match frameOpt with
    | none => Except.error "Cannot group: Need at least 2 layers to group"
    | some frame =>
      let history := pushState s.store.frames s.history
      let layersToGroup := layersToGroupOf frame layerIds
      if layersToGroup.length < 2 then
        Except.error "Cannot group: Selected layers not found"
      else
        let groupLayer : Layer := groupLayerOf frame layerIds groupId
        Except.ok (groupId,
          { store :=
              { s.store with
                  frames := s.store.frames.map (fun f =>
                    if !(f.id == frameId) then f
                    else
                      let remainingLayers :=
                        f.layers.filter (fun l => !(layerIds.contains l.id))
                      let firstLayerIndex := jsFindIndex
                        (fun l => l.id == (layerIds.headD "")) f.layers
                      { f with
                          layers := jsSpliceInsert remainingLayers
                            firstLayerIndex groupLayer
                          updatedAt := now })
                  selectedLayerIds := [groupId] }
            history := history })

/-- The children of a group restored to frame-relative coordinates by adding
the group's offset back (`ungroupLayers`'s `ungroupedLayers`; the group's
`children` are present whenever this is reached). -/
def ungroupedLayersOf (groupLayer : Layer) : List Layer :=
  (groupLayer.children.getD []).map (fun child =>
    Layer.mk
      { child.data with
          x := child.data.x + groupLayer.x
          y := child.data.y + groupLayer.y }
      child.children)

/-- `ungroupLayers(frameId, groupId)`.  Throws unless the frame exists and the
id resolves (recursively) to a layer of type `group` with a `children` array;
pushes history; restores frame-relative coordinates by adding the group's
offset back, and splices the children in place of the group (found by
top-level index). -/
def ungroupLayers (frameId groupId : String) (now : String) (s : AppState) :
    Except String AppState :=
  match getFrame s.store frameId, getLayer s.store frameId groupId with
  | some _, some groupLayer =>
    if !(groupLayer.data.ty == "group") then
      Except.error "Cannot ungroup: Invalid group"
    else
      match groupLayer.children with
      | none => Except.error "Cannot ungroup: Invalid group"
      | some _ =>
        let history := pushState s.store.frames s.history
        let ungroupedLayers := ungroupedLayersOf groupLayer
        Except.ok
          { store :=
              { s.store with
                  frames := s.store.frames.map (fun f =>
                    if !(f.id == frameId) then f
                    else
                      let groupIndex := jsFindIndex (fun l => l.id == groupId) f.layers
                      { f with
                          layers := jsSpliceReplace f.layers groupIndex ungroupedLayers
                          updatedAt := now })
                  selectedLayerIds := ungroupedLayers.map (fun l => l.id) }
            history := history }
  | _, _ => Except.error "Cannot ungroup: Invalid group"

/-! ## Frame store history actions -/

/-- `useFrameStore.undo()`: asks the history store for the previous snapshot;
restores it into `frames` when there is one. -/
def undo (s : AppState) : AppState :=
  match histUndo s.store.frames s.history with
  | (some previousState, h) =>
    { store := { s.store with frames := previousState }, history := h }
  | (none, h) => { s with history := h }

/-- `useFrameStore.redo()`. -/
def redo (s : AppState) : AppState :=
  match histRedo s.history with
  | (some nextState, h) =>
    { store := { s.store with frames := nextState }, history := h }
  | (none, h) => { s with history := h }

/-- `undo()` applied `n` times. -/
def undoN (n : Nat) (s : AppState) : AppState := undo^[n] s

/-- `redo()` applied `n` times. -/
def redoN (n : Nat) (s : AppState) : AppState := redo^[n] s

/-! ## Discrete structural actions (for the undo/redo round-trip claims)

The six discrete, history-pushing actions of the commit surface, with their
nondeterministic inputs (`nanoid()`, timestamps, DOM environment) made
explicit.  `applyAction` returns `none` when the underlying action throws. -/

inductive StructAction where
  | doAddFrame (preset : Option FramePreset) (position : Option (Int × Int))
      (env : DomEnv) (frameId : String) (now : String)
  | doDeleteFrame (frameId : String)
  | doAddLayer (frameId layerId : String) (init : LayerInit) (now : String)
  | doDeleteLayer (frameId layerId : String) (now : String)
  | doGroupLayers (frameId : String) (layerIds : List String)
      (groupId : String) (now : String)
  | doUngroupLayers (frameId groupId : String) (now : String)

def applyAction : StructAction → AppState → Option AppState
  | .doAddFrame preset pos env fid now, s => some (addFrame preset pos env fid now s).2
  | .doDeleteFrame fid, s => some (deleteFrame fid s)
  | .doAddLayer fid lid init now, s => ((addLayer fid lid init now s).map (·.2)).toOption
  | .doDeleteLayer fid lid now, s => (deleteLayer fid lid now s).toOption
  | .doGroupLayers fid lids gid now, s =>
      ((groupLayers fid lids gid now s).map (·.2)).toOption
  | .doUngroupLayers fid gid now, s => (ungroupLayers fid gid now s).toOption

/-- Apply a sequence of structural actions, failing if any one throws. -/
def applyActions : List StructAction → AppState → Option AppState
  | [], s => some s
  | a :: rest, s => (applyAction a s).bind (applyActions rest)

/-- The intermediate `frames` snapshots after each action of a sequence. -/
def framesTraj : List StructAction → AppState → List (List Frame)
  | [], _ => []
  | a :: rest, s =>
    match applyAction a s with
    | some s₁ => s₁.store.frames :: framesTraj rest s₁
    | none => []

/-! ## History-store operation sequences (for the cap claims) -/

inductive HistOp where
  | push (frames : List Frame)
  | hundo (current : List Frame)
  | hredo

def applyHistOp : HistOp → HistoryStore → HistoryStore
  | .push fr, h => pushState fr h
  | .hundo cur, h => (histUndo cur h).2
  | .hredo, h => (histRedo h).2

def applyHistOps : List HistOp → HistoryStore → HistoryStore
  | [], h => h
  | op :: rest, h => applyHistOps rest (applyHistOp op h)

/-- `pushState` folded over a list of snapshots. -/
def pushAll (snaps : List (List Frame)) (h : HistoryStore) : HistoryStore :=
  match snaps with
  | [] => h
  | fr :: rest => pushAll rest (pushState fr h)

/-! ## Canvas objects and z-order enforcement
(`InfiniteCanvas.tsx` / `fabricHelpers.ts`)

A render object carries the denormalized back-references written at creation:
frame objects have `frameId` set and no `layerId`; layer objects carry their
own `layerId` and the owning frame's `frameId`.  `tag` stands for the rest of
the fabric object's identity (shape, image, ...). -/

structure CanvasObj where
  frameId : Option String
  layerId : Option String
  tag : Nat
deriving DecidableEq

/-- `getFrameFromCanvas`: first object whose `frameId` matches — note that the
source does not require the object to be a frame object (layer objects carry
`frameId` too). -/
def getFrameFromCanvas (objects : List CanvasObj) (frameId : String) :
    Option CanvasObj :=
  objects.find? (fun o => o.frameId == some frameId)

/-- `getLayerFromCanvas`: first object whose `layerId` matches. -/
def getLayerFromCanvas (objects : List CanvasObj) (layerId : String) :
    Option CanvasObj :=
  objects.find? (fun o => o.layerId == some layerId)

/-- `enforceZOrder(canvas, currentFrames)`: collect the frame objects in model
frame order, then every frame's layer objects in layer order; commit the
rebuilt `_objects` array only when its length equals the live object count,
otherwise leave the draw list untouched. -/
def enforceZOrder (objects : List CanvasObj) (currentFrames : List Frame) :
    List CanvasObj :=
  let orderedObjects :=
    currentFrames.filterMap (fun f => getFrameFromCanvas objects f.id) ++
    currentFrames.flatMap (fun f =>
      f.layers.filterMap (fun l => getLayerFromCanvas objects l.id))
  if orderedObjects.length == objects.length then orderedObjects else objects

/-- The `(frameId, layerId)` back-reference pair identifying what a canvas
object renders. -/
def objKey (o : CanvasObj) : Option String × Option String := (o.frameId, o.layerId)

/-! ## Pollinations provider retry loop (src/unnamed/part_006) -/

def maxRetries : Nat := 5

def initialTimeout : Nat := 35000

/-- `Math.min(initialTimeout + attempt * 5000, 50000)` — the per-attempt
verification timeout (attempt is 0-based). -/
def attemptTimeout (attempt : Nat) : Nat := min (initialTimeout + attempt * 5000) 50000

/-- `Math.min(1000 * Math.pow(2, attempt), 8000)` — the backoff delay slept
after a failed attempt (attempt is 0-based). -/
def backoffDelay (attempt : Nat) : Nat := min (1000 * 2 ^ attempt) 8000

/-- Outcome of one `verifyImageLoads` call: resolves, or rejects with an error
message (timeout, load error, or a cancellation observed inside the wait). -/
inductive AttemptOutcome where
  | success
  | failure (msg : String)

/-- The environment a run of `generateImage` interacts with: the value of the
cancellation flag at the top-of-loop check before 0-based attempt `i`, and the
result `verifyImageLoads` would produce for attempt `i`. -/
structure GenEnv where
  cancelled : Nat → Bool
  outcome : Nat → AttemptOutcome

inductive GenResult where
  | ok (attempt : Nat)
  | error (msg : String)
deriving DecidableEq

/-- Observable trace of a `generateImage` run: the verification timeout of
each attempt actually performed, the backoff delays actually slept, and the
final settlement. -/
structure GenTrace where
  attempts : List Nat
  waits : List Nat
  result : GenResult
deriving DecidableEq

/-- The `for (let attempt = 0; attempt < maxRetries; attempt++)` body.  `fuel`
counts the remaining iterations, so the current attempt index is
`maxRetries - fuel` with `1 ≤ fuel ≤ maxRetries`; `lastError` mirrors the
source's variable and feeds the (unreachable) post-loop throw. -/
def genGo (env : GenEnv) : Nat → List Nat → List Nat → Option String → GenTrace
  | 0, acc, waits, lastError =>
    ⟨acc, waits, .error (lastError.getD "Failed to generate image with Pollinations.ai")⟩
  | fuel + 1, acc, waits, _ =>
    let attempt := maxRetries - (fuel + 1)
    if env.cancelled attempt then
      ⟨acc, waits, .error "Generation cancelled by user"⟩
    else
      match env.outcome attempt with
      | .success => ⟨acc ++ [attemptTimeout attempt], waits, .ok (attempt + 1)⟩
      | .failure msg =>
        if fuel == 0 then
          ⟨acc ++ [attemptTimeout attempt], waits,
           .error ("Failed to generate image after " ++ toString maxRetries
             ++ " attempts. " ++ msg)⟩
        else
          genGo env fuel (acc ++ [attemptTimeout attempt])
            (waits ++ [backoffDelay attempt]) (some msg)

/-- `PollinationsProvider.generateImage`, as the trace it produces against a
given environment. -/
def generateImage (env : GenEnv) : GenTrace := genGo env maxRetries [] [] none

/-! ## The owning frame of a layer id

Vocabulary used by the selection claims: the owning frame of a layer id is
the first frame whose top-level layer list contains a layer with that id. -/

def owningFrameId (frames : List Frame) (layerId : String) : Option String :=
  (frames.find? (fun f => f.layers.any (fun l => l.id == layerId))).map Frame.id

/-! ## Concrete instances used by witnesses and counterexamples -/

def mkLayer (i : String) (x y : Int) : Layer :=
  Layer.mk
    { id := i, name := i, ty := "image", visible := true, locked := false,
      opacity := 100, blendMode := "normal", x := x, y := y, width := 30,
      height := 40, rotation := 0, scaleX := 1, scaleY := 1, imageUrl := none,
      aiMetadata := none }
    none

def exFrame : Frame :=
  { id := "F1", name := "F", x := 0, y := 0, width := 100, height := 100,
    backgroundColor := "#ffffff", layers := [mkLayer "L1" 10 20, mkLayer "L2" 50 60],
    visible := true, locked := false, clipContent := true,
    exportSettings := { format := "png", scale := 1 }, createdAt := "",
    updatedAt := "" }

def exState : AppState :=
  { store := { frames := [exFrame], selectedFrameId := some "F1",
               selectedLayerIds := [], expandedFrameIds := [] },
    history := { past := [], future := [] } }

/-- The state `addLayer "F1" "Lnew" {} "t"` produces from `exState`. -/
def exAddLayerState : AppState :=
  match addLayer "F1" "Lnew" {} "t" exState with
  | Except.ok (_, s) => s
  | Except.error _ => exState

/-- A frame with a single layer, for the z-order counterexample. -/
def zFrame : Frame := { exFrame with layers := [mkLayer "L1" 0 0] }

/-- The render object of layer `L1` (carrying the owning frame back-reference). -/
def zLayerObj : CanvasObj := { frameId := some "F1", layerId := some "L1", tag := 0 }

/-- The render object of frame `F1`. -/
def zFrameObj : CanvasObj := { frameId := some "F1", layerId := none, tag := 1 }

/-- A structural action that always succeeds: add a preset frame at an
explicit position. -/
def cexEnv : DomEnv :=
  { canvasContainer := none, windowInnerWidth := 0, windowInnerHeight := 0 }

def cexAct : StructAction :=
  StructAction.doAddFrame (some { name := "f", width := 10, height := 10 })
    (some (1, 1)) cexEnv "id" "t"

/-- Empty document model with empty history. -/
def cexStart : AppState :=
  { store := { frames := [], selectedFrameId := none, selectedLayerIds := [],
               expandedFrameIds := [] },
    history := { past := [], future := [] } }

/-- The state after applying `cexAct` once to `cexStart`. -/
def wState : AppState :=
  (addFrame (some { name := "f", width := 10, height := 10 }) (some (1, 1))
    cexEnv "id" "t" cexStart).2

/-- An environment whose cancellation flag becomes set starting with the
check before the third attempt, with every verification failing. -/
def cancelEnv : GenEnv :=
  { cancelled := fun i => decide (2 ≤ i), outcome := fun _ => .failure "boom" }

/-- An environment that never cancels and always fails verification. -/
def failEnv : GenEnv :=
  { cancelled := fun _ => false, outcome := fun _ => .failure "boom" }

/-- The last `n` elements of a list. -/
def takeLast (n : Nat) (l : List α) : List α := l.drop (l.length - n)

/-! # Theorems -/

/-! ## C5: history cap -/

theorem takeLast_of_le {n : Nat} {l : List α} (h : l.length ≤ n) :
    takeLast n l = l := by
  unfold takeLast
  rw [Nat.sub_eq_zero_of_le h, List.drop_zero]

theorem takeLast_length_le (n : Nat) (l : List α) : (takeLast n l).length ≤ n := by
  unfold takeLast
  rw [List.length_drop]
  omega

theorem takeLast_append_of_le {n : Nat} (as bs : List α) (h : n ≤ bs.length) :
    takeLast n (as ++ bs) = takeLast n bs := by
  unfold takeLast
  rw [List.length_append,
    show as.length + bs.length - n = as.length + (bs.length - n) by omega,
    List.drop_append]

theorem takeLast_takeLast_append (n : Nat) (xs ys : List α) :
    takeLast n (takeLast n xs ++ ys) = takeLast n (xs ++ ys) := by
  by_cases h : xs.length ≤ n
  · rw [takeLast_of_le h]
  · have hlen2 : n ≤ (xs.drop (xs.length - n) ++ ys).length := by
      rw [List.length_append, List.length_drop]; omega
    conv_rhs => rw [← List.take_append_drop (xs.length - n) xs]
    rw [List.append_assoc, takeLast_append_of_le _ _ hlen2]
    rfl

/-- `pushState` keeps the last `MAX_HISTORY_SIZE` snapshots of
`past ++ [frames]` (for any reachable `past`, i.e. one of length within the
cap). -/
theorem pushState_past_takeLast (fr : List Frame) (h : HistoryStore)
    (hle : h.past.length ≤ MAX_HISTORY_SIZE) :
    (pushState fr h).past = takeLast MAX_HISTORY_SIZE (h.past ++ [fr]) := by
  simp only [pushState, takeLast]
  by_cases hgt : (h.past ++ [fr]).length > MAX_HISTORY_SIZE
  · rw [if_pos hgt]
    have hlen : (h.past ++ [fr]).length = h.past.length + 1 := by simp
    have h50 : h.past.length = MAX_HISTORY_SIZE := by omega
    rw [show (h.past ++ [fr]).length - MAX_HISTORY_SIZE = 1 by omega, List.drop_one]
  · rw [if_neg hgt]
    rw [show (h.past ++ [fr]).length - MAX_HISTORY_SIZE = 0 by omega, List.drop_zero]

theorem pushAll_past (l : List (List Frame)) :
    ∀ (h : HistoryStore), h.past.length ≤ MAX_HISTORY_SIZE →
      (pushAll l h).past = takeLast MAX_HISTORY_SIZE (h.past ++ l) := by
  induction l with
  | nil => intro h hle; simp [pushAll, takeLast_of_le hle]
  | cons fr rest ih =>
    intro h hle
    show (pushAll rest (pushState fr h)).past = _
    rw [ih (pushState fr h)
        (by rw [pushState_past_takeLast fr h hle]; exact takeLast_length_le _ _),
      pushState_past_takeLast fr h hle, takeLast_takeLast_append]
    simp

/-- The `past + future` size never grows beyond the cap under any sequence of
history-store operations. -/
theorem applyHistOps_size_le (ops : List HistOp) :
    ∀ (h : HistoryStore),
      h.past.length + h.future.length ≤ MAX_HISTORY_SIZE →
      (applyHistOps ops h).past.length + (applyHistOps ops h).future.length ≤
        MAX_HISTORY_SIZE := by
  induction ops with
  | nil => intro h hle; exact hle
  | cons op rest ih =>
    intro h hle
    refine ih _ ?_
    cases op with
    | push fr =>
      simp only [applyHistOp, pushState]
      by_cases hgt : (h.past ++ [fr]).length > MAX_HISTORY_SIZE
      · simp only [hgt, if_pos, List.length_nil, Nat.add_zero, List.length_tail]
        simp only [List.length_append, List.length_cons, List.length_nil] at hgt ⊢
        omega
      · simp only [hgt, if_neg, not_false_iff, List.length_nil, Nat.add_zero]
        simp only [List.length_append, List.length_cons, List.length_nil] at hgt ⊢
        omega
    | hundo cur =>
      simp only [applyHistOp, histUndo]
      by_cases hemp : h.past.isEmpty
      · simp [hemp, hle]
      · simp only [hemp, if_neg, not_false_iff, Bool.false_eq_true,
          List.length_dropLast, List.length_cons]
        have : h.past.length ≠ 0 := by
          cases hp : h.past with
          | nil => rw [hp] at hemp; simp [List.isEmpty] at hemp
          | cons a as => simp [hp]
        omega
    | hredo =>
      simp only [applyHistOp, histRedo]
      cases hf : h.future with
      | nil => simpa using hle
      | cons next rest2 =>
        simp only [List.length_append, List.length_cons, List.length_nil]
        rw [hf] at hle
        simp only [List.length_cons] at hle
        omega

/-- C5: the history store's `past` and `future` stacks never exceed 50
entries (for any operation sequence from the empty store); pushing past the
cap evicts the oldest entries, so 60 pushes leave exactly the 50 most recent
snapshots (the 10 oldest evicted); and every push clears `future`. -/
theorem history_cap :
    (∀ ops : List HistOp,
       (applyHistOps ops { past := [], future := [] }).past.length ≤ 50 ∧
       (applyHistOps ops { past := [], future := [] }).future.length ≤ 50) ∧
    (∀ l : List (List Frame), l.length = 60 →
       (pushAll l { past := [], future := [] }).past = l.drop 10) ∧
    (∀ (fr : List Frame) (h : HistoryStore), (pushState fr h).future = []) := by
  refine ⟨?_, ?_, ?_⟩
  · intro ops
    have := applyHistOps_size_le ops { past := [], future := [] } (by simp)
    unfold MAX_HISTORY_SIZE at this
    constructor <;> omega
  · intro l hl
    rw [pushAll_past l { past := [], future := [] } (by simp)]
    unfold takeLast MAX_HISTORY_SIZE
    simp only [List.nil_append]
    rw [hl]
  · intro fr h; rfl

/-- Witness for `history_cap` at concrete inputs: 60 pushes of the empty
snapshot from the empty store leave 50 entries, and a push clears `future`. -/
theorem history_cap_witness :
    (applyHistOps [] { past := [], future := [] }).past.length ≤ 50 ∧
    (pushAll (List.replicate 60 ([] : List Frame)) { past := [], future := [] }).past
      = (List.replicate 60 ([] : List Frame)).drop 10 ∧
    (pushState [] { past := [[exFrame]], future := [[], []] }).future = [] :=
  ⟨(history_cap.1 []).1,
   history_cap.2.1 (List.replicate 60 []) (by simp),
   history_cap.2.2 [] { past := [[exFrame]], future := [[], []] }⟩

/-! ## C7 / C8: generation retry schedule and cancellation -/

theorem genGo_attempts_le (env : GenEnv) :
    ∀ (fuel : Nat) (acc waits : List Nat) (le : Option String),
      (genGo env fuel acc waits le).attempts.length ≤ acc.length + fuel := by
  intro fuel
  induction fuel with
  | zero => intro acc waits le; simp [genGo]
  | succ fuel ih =>
    intro acc waits le
    simp only [genGo]
    by_cases hc : env.cancelled (maxRetries - (fuel + 1))
    · simp [hc]
    · simp only [hc, if_neg, not_false_iff, Bool.false_eq_true]
      cases env.outcome (maxRetries - (fuel + 1)) with
      | success => simp
      | failure msg =>
        by_cases hf : fuel = 0
        · simp [hf]
        · have : (fuel == 0) = false := by simp [hf]
          simp only [this, Bool.false_eq_true, if_neg, not_false_iff]
          have := ih (acc ++ [attemptTimeout (maxRetries - (fuel + 1))])
            (waits ++ [backoffDelay (maxRetries - (fuel + 1))]) (some msg)
          simp only [List.length_append, List.length_cons, List.length_nil] at this
          omega

/-- C7: on repeated transient failure with no cancellation, the provider
performs exactly 5 attempts with verification timeouts 35s, 40s, 45s, 50s,
50s, sleeps 1s, 2s, 4s, 8s between attempts, and finally rejects with the
retry-exhaustion error carrying the last failure message; moreover no run
ever performs more than 5 attempts. -/
theorem retry_backoff_schedule (env : GenEnv) (m : Nat → String)
    (hc : ∀ i, env.cancelled i = false)
    (ho : ∀ i, env.outcome i = .failure (m i)) :
    (generateImage env).attempts = [35000, 40000, 45000, 50000, 50000] ∧
    (generateImage env).waits = [1000, 2000, 4000, 8000] ∧
    (generateImage env).result =
      .error ("Failed to generate image after 5 attempts. " ++ m 4) ∧
    (∀ env' : GenEnv, (generateImage env').attempts.length ≤ 5) := by
  refine ⟨?_, ?_, ?_, ?_⟩
  · simp [generateImage, genGo, maxRetries, hc, ho, attemptTimeout,
      backoffDelay, initialTimeout]
  · simp [generateImage, genGo, maxRetries, hc, ho, attemptTimeout,
      backoffDelay, initialTimeout]
  · simp only [generateImage, genGo, maxRetries, hc, ho, attemptTimeout,
      backoffDelay, initialTimeout, Bool.false_eq_true, if_neg, not_false_iff]
    rfl
  · intro env'
    have := genGo_attempts_le env' maxRetries [] [] none
    simpa [generateImage, maxRetries] using this

/-- Witness for `retry_backoff_schedule`: the always-failing, never-cancelled
environment. -/
theorem retry_backoff_schedule_witness :
    (generateImage failEnv).attempts = [35000, 40000, 45000, 50000, 50000] ∧
    (generateImage failEnv).waits = [1000, 2000, 4000, 8000] ∧
    (generateImage failEnv).result =
      .error ("Failed to generate image after 5 attempts. " ++ "boom") ∧
    (∀ env' : GenEnv, (generateImage env').attempts.length ≤ 5) :=
  retry_backoff_schedule failEnv (fun _ => "boom") (fun _ => rfl) (fun _ => rfl)

theorem genGo_cancelled_result (env : GenEnv) (m : Nat → String) :
    ∀ (fuel : Nat) (acc waits : List Nat) (le : Option String) (i : Nat),
      fuel ≤ 5 → 5 - fuel ≤ i → i < 5 →
      (∀ j, 5 - fuel ≤ j → j < i → env.cancelled j = false) →
      (∀ j, 5 - fuel ≤ j → j < i → env.outcome j = .failure (m j)) →
      env.cancelled i = true →
      (genGo env fuel acc waits le).result = .error "Generation cancelled by user" ∧
      (genGo env fuel acc waits le).attempts.length = acc.length + (i - (5 - fuel)) := by
  intro fuel
  induction fuel with
  | zero => intro acc waits le i hf5 hfi hi5 _ _ _; omega
  | succ fuel ih =>
    intro acc waits le i hf5 hfi hi5 hcan hout hci
    have hR : maxRetries = 5 := rfl
    simp only [genGo, hR]
    by_cases hattempt : 5 - (fuel + 1) = i
    · rw [hattempt, hci]
      simp [hattempt]
    · have hlt : 5 - (fuel + 1) < i := by omega
      rw [hcan (5 - (fuel + 1)) (by omega) hlt,
        hout (5 - (fuel + 1)) (by omega) hlt]
      have hf0 : fuel ≠ 0 := by omega
      have : (fuel == 0) = false := by simp [hf0]
      simp only [Bool.false_eq_true, if_neg, not_false_iff, this]
      have := ih (acc ++ [attemptTimeout (5 - (fuel + 1))])
        (waits ++ [backoffDelay (5 - (fuel + 1))]) (some (m (5 - (fuel + 1)))) i
        (by omega) (by omega) hi5
        (fun j h1 h2 => hcan j (by omega) h2)
        (fun j h1 h2 => hout j (by omega) h2) hci
      refine ⟨this.1, ?_⟩
      rw [this.2]
      simp only [List.length_append, List.length_cons, List.length_nil]
      omega

/-- C8: whenever the cancellation flag is observed set at the top-of-loop
check before attempt `i+1` (0-based check index `i`), all earlier checks
having seen it clear and all earlier attempts having failed, the operation
rejects with the distinct cancellation error and performs exactly `i`
attempts (no further attempt is made). -/
theorem cancellation_aborts (env : GenEnv) (m : Nat → String) (i : Nat)
    (hi : i < 5)
    (hc : ∀ j, j < i → env.cancelled j = false)
    (ho : ∀ j, j < i → env.outcome j = .failure (m j))
    (hset : env.cancelled i = true) :
    (generateImage env).result = .error "Generation cancelled by user" ∧
    (generateImage env).attempts.length = i := by
  have := genGo_cancelled_result env m maxRetries [] [] none i
    (by rfl) (by simp [maxRetries]) hi
    (fun j h1 h2 => hc j h2) (fun j h1 h2 => ho j h2) hset
  simpa [generateImage, maxRetries] using this

/-- Witness for `cancellation_aborts`: the flag set between attempt 2 and
attempt 3 rejects with the cancellation error after exactly 2 attempts. -/
theorem cancellation_aborts_witness :
    (generateImage cancelEnv).result = .error "Generation cancelled by user" ∧
    (generateImage cancelEnv).attempts.length = 2 :=
  cancellation_aborts cancelEnv (fun _ => "boom") 2 (by omega)
    (fun j hj => by simp [cancelEnv]; omega)
    (fun j _ => rfl) (by simp [cancelEnv])

/-! ## C10: reorderLayers -/

theorem find?_layer_id {ls : List Layer} {i : String} {l0 : Layer}
    (h : ls.find? (fun l => l.id == i) = some l0) : l0.id = i := by
  have := List.find?_some h
  simpa using this

theorem filterMap_find_map_id (ids : List String) (ls : List Layer) :
    (ids.filterMap (fun i => ls.find? (fun l => l.id == i))).map Layer.id
      = ids.filter (fun i => ls.any (fun l => l.id == i)) := by
  induction ids with
  | nil => rfl
  | cons i rest ih =>
    cases h : ls.find? (fun l => l.id == i) with
    | none =>
      have hany : ls.any (fun l => l.id == i) = false := by
        rw [List.any_eq_false]
        intro l hl
        rw [List.find?_eq_none] at h
        exact h l hl
      simp [List.filterMap_cons, h, List.filter_cons, hany, ih]
    | some l0 =>
      have hp := List.find?_some h
      have hany : ls.any (fun l => l.id == i) = true := by
        rw [List.any_eq_true]
        exact ⟨l0, List.mem_of_find?_eq_some h, hp⟩
      have hid : l0.id = i := find?_layer_id h
      simp [List.filterMap_cons, h, List.filter_cons, hany, ih, hid]

/-- `find?` by id over an id-preserving frame transformation. -/
theorem find?_map_id_preserving (frames : List Frame) (fid : String)
    (g : Frame → Frame) (hg : ∀ fr, (g fr).id = fr.id) :
    (frames.map g).find? (fun f => f.id == fid)
      = (frames.find? (fun f => f.id == fid)).map g := by
  rw [List.find?_map]
  have hpg : ((fun f => f.id == fid) ∘ g) = (fun f => f.id == fid) :=
    funext fun fr => by simp [Function.comp, hg]
  rw [hpg]

/-- `getFrame` after `reorderLayers` returns the transformed frame. -/
theorem getFrame_reorder (s : AppState) (fid : String) (ids : List String)
    (now : String) :
    getFrame (reorderLayers fid ids now s).store fid
      = (getFrame s.store fid).map (fun f =>
          if f.id == fid then
            { f with
                layers := ids.filterMap (fun i => f.layers.find? (fun l => l.id == i))
                updatedAt := now }
          else f) := by
  unfold reorderLayers getFrame
  exact find?_map_id_preserving s.store.frames fid _
    (fun fr => by by_cases h : fr.id == fid <;> simp [h])

/-- C10: `reorderLayers(frameId, orderedIds)` leaves the frame with exactly
the existing layers whose ids occur in `orderedIds`, in `orderedIds` order:
its layer ids are `orderedIds` filtered to those with a matching layer (ids
with no match are skipped) and every resulting layer is one of the frame's
previous layers (layers whose ids are omitted are silently removed). -/
theorem reorder_layers_spec (s : AppState) (fid : String) (ids : List String)
    (now : String) (f : Frame) (hf : getFrame s.store fid = some f) :
    ∃ f', getFrame (reorderLayers fid ids now s).store fid = some f' ∧
      f'.layers = ids.filterMap (fun i => f.layers.find? (fun l => l.id == i)) ∧
      f'.layers.map Layer.id = ids.filter (fun i => f.layers.any (fun l => l.id == i)) ∧
      (∀ l, l ∈ f'.layers → l ∈ f.layers) := by
  have hfid0 := List.find?_some
    (show List.find? (fun fr => fr.id == fid) s.store.frames = some f from hf)
  have hfid : (f.id == fid) = true := hfid0
  refine ⟨{ f with
      layers := ids.filterMap (fun i => f.layers.find? (fun l => l.id == i))
      updatedAt := now }, ?_, rfl, filterMap_find_map_id ids f.layers, ?_⟩
  · rw [getFrame_reorder, hf]
    show some _ = some _
    simp [hfid]
  · intro l hl
    rw [List.mem_filterMap] at hl
    obtain ⟨i, _, hfind⟩ := hl
    exact List.mem_of_find?_eq_some hfind

/-- Witness for `reorder_layers_spec`: reorder `[L2, Lz, L1]` in a frame
holding `[L1, L2]`. -/
theorem reorder_layers_spec_witness :
    ∃ f', getFrame (reorderLayers "F1" ["L2", "Lz", "L1"] "t" exState).store "F1"
        = some f' ∧
      f'.layers = (["L2", "Lz", "L1"] : List String).filterMap
        (fun i => exFrame.layers.find? (fun l => l.id == i)) ∧
      f'.layers.map Layer.id = (["L2", "Lz", "L1"] : List String).filter
        (fun i => exFrame.layers.any (fun l => l.id == i)) ∧
      (∀ l, l ∈ f'.layers → l ∈ exFrame.layers) :=
  reorder_layers_spec exState "F1" ["L2", "Lz", "L1"] "t" exFrame rfl

/-! ## C4: error handling of the commit surface -/

/-- C4 (amended): `addLayer`, `deleteLayer`, `updateLayer`, `groupLayers` and
`ungroupLayers` throw on a nonexistent frame/layer id, and the read accessors
`getFrame`/`getLayer` return an absent value; but `deleteFrame`,
`updateFrame` and `reorderLayers` perform no existence check — on a
nonexistent frame id they return normally leaving the frame list unchanged
(`deleteFrame` still pushes a history entry). -/
theorem mutation_error_handling (s : AppState) (fid lid gid now : String)
    (init : LayerInit) (lp : LayerPatch) (lids ids : List String)
    (p : FramePatch) :
    (getFrame s.store fid = none →
      addLayer fid lid init now s =
        Except.error ("Cannot add layer: Frame " ++ fid ++ " not found")) ∧
    (getLayer s.store fid lid = none →
      ∃ msg, deleteLayer fid lid now s = Except.error msg) ∧
    (getLayer s.store fid lid = none →
      ∃ msg, updateLayer fid lid lp now s = Except.error msg) ∧
    (getFrame s.store fid = none →
      groupLayers fid lids gid now s =
        Except.error "Cannot group: Need at least 2 layers to group") ∧
    (getLayer s.store fid gid = none →
      ungroupLayers fid gid now s = Except.error "Cannot ungroup: Invalid group") ∧
    (fid ∉ s.store.frames.map Frame.id → getFrame s.store fid = none) ∧
    (getFrame s.store fid = none → getLayer s.store fid lid = none) ∧
    (fid ∉ s.store.frames.map Frame.id →
      (deleteFrame fid s).store.frames = s.store.frames ∧
      updateFrame fid p now s = s ∧
      reorderLayers fid ids now s = s) := by
  have hnotmem : fid ∉ s.store.frames.map Frame.id →
      ∀ f, f ∈ s.store.frames → (f.id == fid) = false := by
    intro hmem f hf
    by_contra hbeq
    rw [Bool.not_eq_false, beq_iff_eq] at hbeq
    exact hmem (by rw [← hbeq]; exact List.mem_map_of_mem Frame.id hf)
  have hmapid : fid ∉ s.store.frames.map Frame.id →
      ∀ (g : Frame → Frame),
        s.store.frames.map (fun f => if f.id == fid then g f else f)
          = s.store.frames := by
    intro hmem g
    have := hnotmem hmem
    calc s.store.frames.map (fun f => if f.id == fid then g f else f)
        = s.store.frames.map (fun f => f) :=
          List.map_congr_left (fun f hf => by rw [this f hf]; simp)
      _ = s.store.frames := List.map_id' s.store.frames
  refine ⟨?_, ?_, ?_, ?_, ?_, ?_, ?_, ?_⟩
  · intro h; simp [addLayer, h]
  · intro h
    cases hF : getFrame s.store fid with
    | none =>
      exact ⟨"Cannot delete layer: Frame " ++ fid ++ " not found",
        by simp [deleteLayer, hF]⟩
    | some fr =>
      exact ⟨"Cannot delete layer: Layer " ++ lid ++ " not found in frame " ++ fid,
        by simp [deleteLayer, hF, h]⟩
  · intro h
    cases hF : getFrame s.store fid with
    | none =>
      exact ⟨"Cannot update layer: Frame " ++ fid ++ " not found",
        by simp [updateLayer, hF]⟩
    | some fr =>
      exact ⟨"Cannot update layer: Layer " ++ lid ++ " not found in frame " ++ fid,
        by simp [updateLayer, hF, h]⟩
  · intro h; simp [groupLayers, h]
  · intro h
    cases hF : getFrame s.store fid with
    | none => simp [ungroupLayers, hF]
    | some fr => simp [ungroupLayers, hF, h]
  · intro hmem
    rw [getFrame, List.find?_eq_none]
    intro f hf
    simp [hnotmem hmem f hf]
  · intro h; simp [getLayer, h]
  · intro hmem
    have hn := hnotmem hmem
    refine ⟨?_, ?_, ?_⟩
    · show s.store.frames.filter (fun f => !(f.id == fid)) = _
      rw [List.filter_eq_self]
      intro f hf
      simp [hn f hf]
    · show { s with store := { s.store with frames := _ } } = s
      rw [hmapid hmem]
    · show { s with store := { s.store with frames := _ } } = s
      rw [hmapid hmem]

/-- C4 as stated is refuted: invoking `deleteFrame`, `updateFrame` or
`reorderLayers` with a frame id that does not exist returns normally instead
of throwing — on the empty model, `deleteFrame "missing"` completes and even
pushes a history entry, and `updateFrame`/`reorderLayers` return the state
unchanged. -/
theorem mutation_error_handling_cex :
    deleteFrame "missing" cexStart =
      { store := { frames := [], selectedFrameId := none, selectedLayerIds := [],
                   expandedFrameIds := [] },
        history := { past := [[]], future := [] } } ∧
    updateFrame "missing" {} "t" cexStart = cexStart ∧
    reorderLayers "missing" ["L1"] "t" cexStart = cexStart :=
  ⟨rfl, rfl, rfl⟩

/-- Witness for `mutation_error_handling` at a state with one frame `F1`:
`addLayer` on a missing frame throws, `getFrame` on a missing id is `none`,
and the non-checking mutations leave the frame list unchanged. -/
theorem mutation_error_handling_witness :
    addLayer "missing" "L9" {} "t" exState =
      Except.error ("Cannot add layer: Frame " ++ "missing" ++ " not found") ∧
    getFrame exState.store "missing" = none ∧
    (∃ msg, deleteLayer "missing" "L9" "t" exState = Except.error msg) ∧
    ((deleteFrame "missing" exState).store.frames = exState.store.frames ∧
      updateFrame "missing" {} "t" exState = exState ∧
      reorderLayers "missing" [] "t" exState = exState) :=
  ⟨(mutation_error_handling exState "missing" "L9" "G" "t" {} {} [] [] {}).1 rfl,
   (mutation_error_handling exState "missing" "L9" "G" "t" {} {} [] [] {}).2.2.2.2.2.1
     (by simp [exState, exFrame]),
   (mutation_error_handling exState "missing" "L9" "G" "t" {} {} [] [] {}).2.1 rfl,
   (mutation_error_handling exState "missing" "L9" "G" "t" {} {} [] [] {}).2.2.2.2.2.2.2
     (by simp [exState, exFrame])⟩

/-! ## C3: selection invariant -/

/-- C3: after `selectLayers(ids)` with a non-empty `ids`, every layer id that
ends up selected is owned by the (unchanged) selected frame: whenever the
resulting selection is `hd :: tl`, the owning frame of `hd` — well defined
under the no-duplicate-owner hypothesis — is exactly the selected frame; and
after any `selectFrame(x)` the selected layer ids are empty. -/
theorem selection_invariant (s : FrameStore) (ids : List String) (hd : String)
    (tl : List String) :
    (ids ≠ [] →
      (selectLayers ids s).selectedLayerIds = hd :: tl →
      (∀ f1, f1 ∈ s.frames → ∀ f2, f2 ∈ s.frames →
        f1.layers.any (fun l => l.id == hd) = true →
        f2.layers.any (fun l => l.id == hd) = true → f1.id = f2.id) →
      owningFrameId s.frames hd = (selectLayers ids s).selectedFrameId) ∧
    (∀ x, (selectFrame x s).selectedLayerIds = []) := by
  constructor
  · intro hne hres huniq
    unfold selectLayers at hres ⊢
    cases hsel : s.selectedFrameId with
    | none => simp only [hsel] at hres; simp at hres
    | some fid =>
      have hlen : ids.length > 0 := by
        cases ids with
        | nil => exact absurd rfl hne
        | cons a as => simp
      simp only [hsel, if_pos hlen] at hres ⊢
      cases hF : getFrame s fid with
      | none => simp only [hF] at hres; simp at hres
      | some frame =>
        simp only [hF] at hres ⊢
        have hmem : hd ∈ ids.filter (fun i => frame.layers.any (fun l => l.id == i)) := by
          rw [hres]; exact List.mem_cons_self hd tl
        rw [List.mem_filter] at hmem
        have hframe_mem : frame ∈ s.frames := List.mem_of_find?_eq_some hF
        have hframe_id := List.find?_some hF
        have hown : (s.frames.find? (fun f => f.layers.any (fun l => l.id == hd))).isSome := by
          rw [List.find?_isSome]
          exact ⟨frame, hframe_mem, hmem.2⟩
        cases hg : s.frames.find? (fun f => f.layers.any (fun l => l.id == hd)) with
        | none => rw [hg] at hown; simp at hown
        | some g =>
          have hgp := List.find?_some hg
          have hgm := List.mem_of_find?_eq_some hg
          unfold owningFrameId
          rw [hg]
          have : g.id = frame.id := huniq g hgm frame hframe_mem hgp hmem.2
          show some g.id = some fid
          rw [this, show frame.id = fid from by simpa using hframe_id]
  · intro x
    cases x with
    | none => rfl
    | some fid =>
      unfold selectFrame
      by_cases h : (getFrame s fid).isNone <;> simp [h]

/-- Witness for `selection_invariant`: selecting `[L2, Lx]` in a state whose
selected frame `F1` owns `L2` keeps `F1` selected, which is `L2`'s owning
frame; and `selectFrame` clears the layer selection. -/
theorem selection_invariant_witness :
    owningFrameId exState.store.frames "L2"
      = (selectLayers ["L2", "Lx"] exState.store).selectedFrameId ∧
    (selectFrame (some "F1") exState.store).selectedLayerIds = [] :=
  ⟨(selection_invariant exState.store ["L2", "Lx"] "L2" []).1 (by simp) rfl
    (fun f1 h1 f2 h2 _ _ => by
      have e1 : f1 = exFrame := by simpa [exState] using h1
      have e2 : f2 = exFrame := by simpa [exState] using h2
      rw [e1, e2]),
   (selection_invariant exState.store ["L2", "Lx"] "L2" []).2 (some "F1")⟩

/-! ## C9: history push discipline -/

theorem pushState_past_getLast (fr : List Frame) (h : HistoryStore) :
    (pushState fr h).past.getLast? = some fr ∧ (pushState fr h).future = [] := by
  constructor
  · simp only [pushState]
    split
    · rename_i hgt
      cases hp : h.past with
      | nil => rw [hp] at hgt; simp [MAX_HISTORY_SIZE] at hgt
      | cons a as =>
        show (as ++ [fr]).getLast? = some fr
        exact List.getLast?_concat _
    · exact List.getLast?_concat _
  · rfl

theorem addLayer_ok_history {fid lid now : String} {init : LayerInit}
    {s s' : AppState} {r : String}
    (h : addLayer fid lid init now s = Except.ok (r, s')) :
    s'.history = pushState s.store.frames s.history := by
  unfold addLayer at h
  simp only [] at h
  split at h
  · exact absurd h (by simp)
  · simp only [Except.ok.injEq, Prod.mk.injEq] at h
    rw [← h.2]

theorem deleteLayer_ok_history {fid lid now : String} {s s' : AppState}
    (h : deleteLayer fid lid now s = Except.ok s') :
    s'.history = pushState s.store.frames s.history := by
  unfold deleteLayer at h
  simp only [] at h
  split at h
  · exact absurd h (by simp)
  · split at h
    · exact absurd h (by simp)
    · simp only [Except.ok.injEq] at h
      rw [← h]

theorem updateLayer_ok_history {fid lid now : String} {lp : LayerPatch}
    {s s' : AppState} (h : updateLayer fid lid lp now s = Except.ok s') :
    s'.history = s.history := by
  unfold updateLayer at h
  simp only [] at h
  split at h
  · exact absurd h (by simp)
  · split at h
    · exact absurd h (by simp)
    · simp only [Except.ok.injEq] at h
      rw [← h]

theorem groupLayers_ok_history {fid gid now : String} {lids : List String}
    {s s' : AppState} {r : String}
    (h : groupLayers fid lids gid now s = Except.ok (r, s')) :
    s'.history = pushState s.store.frames s.history := by
  unfold groupLayers at h
  simp only [] at h
  split at h
  · exact absurd h (by simp)
  · split at h
    · exact absurd h (by simp)
    · split at h
      · exact absurd h (by simp)
      · simp only [Except.ok.injEq, Prod.mk.injEq] at h
        rw [← h.2]

theorem ungroupLayers_ok_history {fid gid now : String} {s s' : AppState}
    (h : ungroupLayers fid gid now s = Except.ok s') :
    s'.history = pushState s.store.frames s.history := by
  unfold ungroupLayers at h
  simp only [] at h
  split at h
  · split at h
    · exact absurd h (by simp)
    · split at h
      · exact absurd h (by simp)
      · simp only [Except.ok.injEq] at h
        rw [← h]
  · exact absurd h (by simp)

/-- The `match updateLayer ... with | ok s' => s' | error _ => s` wrapper the
toggle actions use keeps the history unchanged. -/
theorem updateLayer_getD_history (e : Except String AppState) (s : AppState)
    (he : ∀ s', e = Except.ok s' → s'.history = s.history) :
    (match e with | Except.ok s' => s' | Except.error _ => s).history
      = s.history := by
  cases e with
  | ok s' => exact he s' rfl
  | error _ => rfl

theorem toggleLayerVisibility_history (fid lid : String)
    (cpos : Option (Int × Int)) (now : String) (s : AppState) :
    (toggleLayerVisibility fid lid cpos now s).history = s.history := by
  unfold toggleLayerVisibility
  split
  · simp only []
    split
    · split
      · exact updateLayer_getD_history _ s
          (fun s' h => updateLayer_ok_history h)
      · exact updateLayer_getD_history _ s
          (fun s' h => updateLayer_ok_history h)
    · exact updateLayer_getD_history _ s
        (fun s' h => updateLayer_ok_history h)
  · rfl

theorem toggleLayerLock_history (fid lid now : String) (s : AppState) :
    (toggleLayerLock fid lid now s).history = s.history := by
  unfold toggleLayerLock
  split
  · exact updateLayer_getD_history _ s (fun s' h => updateLayer_ok_history h)
  · rfl

/-- C9: every discrete structural action (`addFrame`, `deleteFrame`,
`addLayer`, `deleteLayer`, `groupLayers`, `ungroupLayers`) installs exactly
`pushState` of the pre-mutation snapshot, whose `past` then ends with that
snapshot and whose `future` is empty; the continuous operations
(`updateFrame`, `updateLayer`, the two toggles, `reorderLayers`) leave the
history store untouched. -/
theorem history_push_discipline (s : AppState) (preset : Option FramePreset)
    (pos : Option (Int × Int)) (env : DomEnv) (fid lid gid now : String)
    (init : LayerInit) (p : FramePatch) (lp : LayerPatch)
    (lids ids : List String) (cpos : Option (Int × Int)) :
    ((addFrame preset pos env fid now s).2.history
        = pushState s.store.frames s.history) ∧
    ((deleteFrame fid s).history = pushState s.store.frames s.history) ∧
    (∀ r s', addLayer fid lid init now s = Except.ok (r, s') →
        s'.history = pushState s.store.frames s.history) ∧
    (∀ s', deleteLayer fid lid now s = Except.ok s' →
        s'.history = pushState s.store.frames s.history) ∧
    (∀ r s', groupLayers fid lids gid now s = Except.ok (r, s') →
        s'.history = pushState s.store.frames s.history) ∧
    (∀ s', ungroupLayers fid gid now s = Except.ok s' →
        s'.history = pushState s.store.frames s.history) ∧
    (∀ (fr : List Frame) (h : HistoryStore),
        (pushState fr h).past.getLast? = some fr ∧ (pushState fr h).future = []) ∧
    ((updateFrame fid p now s).history = s.history) ∧
    (∀ s', updateLayer fid lid lp now s = Except.ok s' → s'.history = s.history) ∧
    ((toggleLayerVisibility fid lid cpos now s).history = s.history) ∧
    ((toggleLayerLock fid lid now s).history = s.history) ∧
    ((reorderLayers fid ids now s).history = s.history) :=
  ⟨rfl, rfl,
   fun _ _ h => addLayer_ok_history h,
   fun _ h => deleteLayer_ok_history h,
   fun _ _ h => groupLayers_ok_history h,
   fun _ h => ungroupLayers_ok_history h,
   pushState_past_getLast,
   rfl,
   fun _ h => updateLayer_ok_history h,
   toggleLayerVisibility_history fid lid cpos now s,
   toggleLayerLock_history fid lid now s,
   rfl⟩

/-- Witness for `history_push_discipline` at the one-frame state: a discrete
action's resulting history is the push of the pre-state snapshot (whose
`past` ends with it), and continuous operations leave the history alone. -/
theorem history_push_discipline_witness :
    (deleteFrame "F1" exState).history = pushState exState.store.frames exState.history ∧
    exAddLayerState.history = pushState exState.store.frames exState.history ∧
    (pushState exState.store.frames exState.history).past.getLast?
      = some exState.store.frames ∧
    (toggleLayerLock "F1" "L1" "t" exState).history = exState.history ∧
    (updateFrame "F1" {} "t" exState).history = exState.history :=
  ⟨(history_push_discipline exState none none cexEnv "F1" "L1" "G" "t" {} {} {} [] [] none).2.1,
   (history_push_discipline exState none none cexEnv "F1" "Lnew" "G" "t" {} {} {} [] [] none).2.2.1
     "Lnew" exAddLayerState rfl,
   ((history_push_discipline exState none none cexEnv "F1" "L1" "G" "t" {} {} {} [] [] none).2.2.2.2.2.2.1
     exState.store.frames exState.history).1,
   (history_push_discipline exState none none cexEnv "F1" "L1" "G" "t" {} {} {} [] [] none).2.2.2.2.2.2.2.2.2.2.1,
   (history_push_discipline exState none none cexEnv "F1" "L1" "G" "t" {} {} {} [] [] none).2.2.2.2.2.2.2.1⟩

/-! ## C1: z-order enforcement -/

theorem frames_pass_keys (objects : List CanvasObj) (frames : List Frame)
    (hF : ∀ f ∈ frames, ∃ o, getFrameFromCanvas objects f.id = some o ∧
      o.layerId = none) :
    (frames.filterMap (fun f => getFrameFromCanvas objects f.id)).map objKey
      = frames.map (fun f => ((some f.id : Option String), (none : Option String))) := by
  induction frames with
  | nil => rfl
  | cons f rest ih =>
    obtain ⟨o, ho, hl⟩ := hF f (List.mem_cons_self f rest)
    have hfr : o.frameId = some f.id := by
      have := List.find?_some ho
      simpa using this
    rw [List.filterMap_cons, ho]
    simp only [List.map_cons, objKey, hfr, hl]
    rw [ih (fun f hf => hF f (List.mem_cons_of_mem _ hf))]

theorem layer_objs_keys (objects : List CanvasObj) (fid : String)
    (ls : List Layer)
    (hL : ∀ l ∈ ls, ∃ o, getLayerFromCanvas objects l.id = some o ∧
      o.frameId = some fid) :
    (ls.filterMap (fun l => getLayerFromCanvas objects l.id)).map objKey
      = ls.map (fun l => ((some fid : Option String), some l.id)) := by
  induction ls with
  | nil => rfl
  | cons l rest ih =>
    obtain ⟨o, ho, hf⟩ := hL l (List.mem_cons_self l rest)
    have hli : o.layerId = some l.id := by
      have := List.find?_some ho
      simpa using this
    rw [List.filterMap_cons, ho]
    simp only [List.map_cons, objKey, hf, hli]
    rw [ih (fun l hl => hL l (List.mem_cons_of_mem _ hl))]

theorem layers_pass_keys (objects : List CanvasObj) (frames : List Frame)
    (hL : ∀ f ∈ frames, ∀ l ∈ f.layers,
      ∃ o, getLayerFromCanvas objects l.id = some o ∧ o.frameId = some f.id) :
    (frames.flatMap (fun f =>
        f.layers.filterMap (fun l => getLayerFromCanvas objects l.id))).map objKey
      = frames.flatMap (fun f =>
          f.layers.map (fun l => ((some f.id : Option String), some l.id))) := by
  induction frames with
  | nil => rfl
  | cons f rest ih =>
    simp only [List.flatMap_cons, List.map_append]
    rw [layer_objs_keys objects f.id f.layers (hL f (List.mem_cons_self f rest)),
      ih (fun f hf => hL f (List.mem_cons_of_mem _ hf))]

theorem flatMap_layers_length (frames : List Frame)
    (g : Frame → Layer → Option String × Option String) :
    (frames.flatMap (fun f => f.layers.map (g f))).length
      = (frames.map (fun f => f.layers.length)).sum := by
  induction frames with
  | nil => rfl
  | cons f rest ih => simp [List.flatMap_cons, ih]

/-- C1 (amended): provided every frame-id lookup on the canvas actually hits
the frame's render object (layer objects also carry the frame back-reference,
so a layer object preceding its frame's object would be returned instead) and
every layer of every frame has a render object carrying its owning frame id,
`enforceZOrder` commits the rebuilt draw list exactly when the live object
count equals the number of frames plus layers, the committed order being all
frame objects in model frame order followed by the layer objects grouped by
owning frame in model order and by layer order within each frame; on a count
mismatch the draw list is left unchanged. -/
theorem zorder_enforce_amended (objects : List CanvasObj) (frames : List Frame)
    (hF : ∀ f ∈ frames, ∃ o, getFrameFromCanvas objects f.id = some o ∧
      o.layerId = none)
    (hL : ∀ f ∈ frames, ∀ l ∈ f.layers,
      ∃ o, getLayerFromCanvas objects l.id = some o ∧ o.frameId = some f.id) :
    (objects.length = frames.length + (frames.map (fun f => f.layers.length)).sum →
      (enforceZOrder objects frames).map objKey
        = frames.map (fun f => ((some f.id : Option String), (none : Option String)))
          ++ frames.flatMap (fun f =>
              f.layers.map (fun l => ((some f.id : Option String), some l.id)))) ∧
    (objects.length ≠ frames.length + (frames.map (fun f => f.layers.length)).sum →
      enforceZOrder objects frames = objects) := by
  have hkeys1 := frames_pass_keys objects frames hF
  have hkeys2 := layers_pass_keys objects frames hL
  have h1 := congrArg List.length hkeys1
  have h2 := congrArg List.length hkeys2
  simp only [List.length_map] at h1 h2
  have hlen : (frames.filterMap (fun f => getFrameFromCanvas objects f.id) ++
      frames.flatMap (fun f =>
        f.layers.filterMap (fun l => getLayerFromCanvas objects l.id))).length
      = frames.length + (frames.map (fun f => f.layers.length)).sum := by
    rw [List.length_append, h1, h2, flatMap_layers_length]
  constructor
  · intro hEq
    unfold enforceZOrder
    simp only []
    rw [if_pos (by rw [beq_iff_eq, hlen, hEq])]
    rw [List.map_append, hkeys1, hkeys2]
  · intro hNe
    unfold enforceZOrder
    simp only []
    rw [if_neg (by rw [beq_iff_eq, hlen]; exact fun hh => hNe hh.symm)]

/-- C1 as stated is refuted: on the canvas `[layer object of L1, frame object
of F1]` — one render object per frame and per layer, but with the layer
object first — the frame lookup by frame id returns the layer object (layer
objects carry the frame back-reference), so the committed rebuild duplicates
the layer object and drops the frame object instead of putting the frame
object first. -/
theorem zorder_enforce_cex :
    (enforceZOrder [zLayerObj, zFrameObj] [zFrame]).map objKey
        = [(some "F1", some "L1"), (some "F1", some "L1")] ∧
    (enforceZOrder [zLayerObj, zFrameObj] [zFrame]).map objKey
        ≠ [zFrame].map (fun f => ((some f.id : Option String), (none : Option String)))
          ++ [zFrame].flatMap (fun f =>
              f.layers.map (fun l => ((some f.id : Option String), some l.id))) := by
  constructor
  · rfl
  · decide

/-- Witness for `zorder_enforce_amended`: the reconciler-shaped canvas
`[frame object, layer object]` commits the canonical order. -/
theorem zorder_enforce_amended_witness :
    (enforceZOrder [zFrameObj, zLayerObj] [zFrame]).map objKey
      = [zFrame].map (fun f => ((some f.id : Option String), (none : Option String)))
        ++ [zFrame].flatMap (fun f =>
            f.layers.map (fun l => ((some f.id : Option String), some l.id))) :=
  (zorder_enforce_amended [zFrameObj, zLayerObj] [zFrame]
    (fun f hf => by
      have hfe : f = zFrame := by simpa using hf
      subst hfe
      exact ⟨zFrameObj, rfl, rfl⟩)
    (fun f hf l hl => by
      have hfe : f = zFrame := by simpa using hf
      subst hfe
      have hle : l = mkLayer "L1" 0 0 := by
        simpa [zFrame, exFrame] using hl
      subst hle
      exact ⟨zLayerObj, rfl, rfl⟩)).1 rfl

/-! ## C2: undo/redo round-trip -/

theorem pushState_no_evict (fr : List Frame) (h : HistoryStore)
    (hlt : h.past.length < MAX_HISTORY_SIZE) :
    pushState fr h = { past := h.past ++ [fr], future := [] } := by
  simp only [pushState]
  rw [if_neg]
  simp only [List.length_append, List.length_cons, List.length_nil]
  omega

/-- Every successful structural action installs exactly the push of the
pre-mutation snapshot as its history. -/
theorem applyAction_history (a : StructAction) (s s' : AppState)
    (h : applyAction a s = some s') :
    s'.history = pushState s.store.frames s.history := by
  cases a with
  | doAddFrame preset pos env fid now =>
    simp only [applyAction, Option.some.injEq] at h
    rw [← h]
    rfl
  | doDeleteFrame fid =>
    simp only [applyAction, Option.some.injEq] at h
    rw [← h]
    rfl
  | doAddLayer fid lid init now =>
    simp only [applyAction] at h
    cases he : addLayer fid lid init now s with
    | error e => rw [he] at h; simp [Except.map, Except.toOption] at h
    | ok v =>
      rw [he] at h
      simp only [Except.map, Except.toOption, Option.some.injEq] at h
      rw [← h]
      exact addLayer_ok_history (by rw [he])
  | doDeleteLayer fid lid now =>
    simp only [applyAction] at h
    cases he : deleteLayer fid lid now s with
    | error e => rw [he] at h; simp [Except.toOption] at h
    | ok v =>
      rw [he] at h
      simp only [Except.toOption, Option.some.injEq] at h
      rw [← h]
      exact deleteLayer_ok_history he
  | doGroupLayers fid lids gid now =>
    simp only [applyAction] at h
    cases he : groupLayers fid lids gid now s with
    | error e => rw [he] at h; simp [Except.map, Except.toOption] at h
    | ok v =>
      rw [he] at h
      simp only [Except.map, Except.toOption, Option.some.injEq] at h
      rw [← h]
      exact groupLayers_ok_history (by rw [he])
  | doUngroupLayers fid gid now =>
    simp only [applyAction] at h
    cases he : ungroupLayers fid gid now s with
    | error e => rw [he] at h; simp [Except.toOption] at h
    | ok v =>
      rw [he] at h
      simp only [Except.toOption, Option.some.injEq] at h
      rw [← h]
      exact ungroupLayers_ok_history he

/-- `undo` on a state whose `past` ends with `x`: restore `x`, pop it, and
prepend the current frames to `future`. -/
theorem undo_snoc (s' : AppState) (p : List (List Frame)) (x : List Frame)
    (hp : s'.history.past = p ++ [x]) :
    undo s' = { store := { s'.store with frames := x },
                history := { past := p,
                             future := s'.store.frames :: s'.history.future } } := by
  unfold undo histUndo
  rw [hp]
  simp [List.getLast?_concat, List.dropLast_concat]

theorem undoN_restores (acts : List StructAction) :
    ∀ (s s' : AppState), applyActions acts s = some s' →
      s.history.past.length + acts.length ≤ MAX_HISTORY_SIZE →
      undoN acts.length s' =
        { store := { s'.store with frames := s.store.frames },
          history := { past := s.history.past,
                       future := framesTraj acts s ++ s'.history.future } } := by
  induction acts with
  | nil =>
    intro s s' h _
    simp only [applyActions, Option.some.injEq] at h
    subst h
    rfl
  | cons a rest ih =>
    intro s s' h hle
    simp only [applyActions] at h
    cases ha : applyAction a s with
    | none => rw [ha] at h; simp at h
    | some s₁ =>
      rw [ha] at h
      have h' : applyActions rest s₁ = some s' := h
      have hhist := applyAction_history a s s₁ ha
      have hlt : s.history.past.length < MAX_HISTORY_SIZE := by
        simp only [List.length_cons] at hle
        omega
      have hpast1 : s₁.history.past = s.history.past ++ [s.store.frames] := by
        rw [hhist, pushState_no_evict _ _ hlt]
      have hfut1 : s₁.history.future = [] := by
        rw [hhist]
        rfl
      have hle1 : s₁.history.past.length + rest.length ≤ MAX_HISTORY_SIZE := by
        rw [hpast1]
        simp only [List.length_append, List.length_cons, List.length_nil] at hle ⊢
        omega
      have IH := ih s₁ s' h' hle1
      show undoN (rest.length + 1) s' = _
      have hstep : undoN (rest.length + 1) s' = undo (undoN rest.length s') :=
        Function.iterate_succ_apply' undo rest.length s'
      rw [hstep,
        undo_snoc (undoN rest.length s') s.history.past s.store.frames
          (by rw [IH]; exact hpast1),
        IH]
      have htraj : framesTraj (a :: rest) s = s₁.store.frames :: framesTraj rest s₁ := by
        simp only [framesTraj, ha]
      rw [htraj]
      simp

theorem getLast?_cons_getD (x : α) (T : List α) (d : α) :
    ((x :: T).getLast?).getD d = (T.getLast?).getD x := by
  rw [List.getLast?_cons]
  rfl

theorem redoN_consume (F : List (List Frame)) :
    ∀ (G : List (List Frame)) (u : AppState), u.history.future = F ++ G →
      redoN F.length u =
        { store := { u.store with frames := F.getLast?.getD u.store.frames },
          history := { past := u.history.past ++ F, future := G } } := by
  induction F with
  | nil =>
    intro G u hf
    simp only [List.nil_append] at hf
    conv_rhs => rw [List.append_nil, ← hf]
    rfl
  | cons x F ih =>
    intro G u hf
    show redoN (F.length + 1) u = _
    have hstep : redoN (F.length + 1) u = redoN F.length (redo u) :=
      Function.iterate_succ_apply redo F.length u
    have hredo : redo u =
        { store := { u.store with frames := x },
          history := { past := u.history.past ++ [x], future := F ++ G } } := by
      unfold redo histRedo
      rw [hf]
      rfl
    rw [hstep, hredo, ih G _ rfl]
    rw [getLast?_cons_getD]
    simp [List.append_assoc]

theorem framesTraj_length (acts : List StructAction) :
    ∀ (s s' : AppState), applyActions acts s = some s' →
      (framesTraj acts s).length = acts.length := by
  induction acts with
  | nil => intro s s' _; rfl
  | cons a rest ih =>
    intro s s' h
    simp only [applyActions] at h
    cases ha : applyAction a s with
    | none => rw [ha] at h; simp at h
    | some s₁ =>
      rw [ha] at h
      simp only [framesTraj, ha, List.length_cons]
      rw [ih s₁ s' h]

theorem framesTraj_getLast (acts : List StructAction) :
    ∀ (s s' : AppState), applyActions acts s = some s' →
      ((framesTraj acts s).getLast?).getD s.store.frames = s'.store.frames := by
  induction acts with
  | nil =>
    intro s s' h
    simp only [applyActions, Option.some.injEq] at h
    subst h
    rfl
  | cons a rest ih =>
    intro s s' h
    simp only [applyActions] at h
    cases ha : applyAction a s with
    | none => rw [ha] at h; simp at h
    | some s₁ =>
      rw [ha] at h
      simp only [framesTraj, ha]
      rw [getLast?_cons_getD]
      exact ih s₁ s' h

/-- C2 (amended): the undo/redo round-trip holds as long as the cap is not
hit — for any successful sequence of discrete structural actions whose count
plus the starting `past` size is at most 50, `undo()` applied n times
restores the starting frame list exactly, and `redo()` applied n times after
that restores the final frame list exactly. -/
theorem undo_redo_roundtrip (acts : List StructAction) (s s' : AppState)
    (h : applyActions acts s = some s')
    (hle : s.history.past.length + acts.length ≤ MAX_HISTORY_SIZE) :
    (undoN acts.length s').store.frames = s.store.frames ∧
    (redoN acts.length (undoN acts.length s')).store.frames = s'.store.frames := by
  have hU := undoN_restores acts s s' h hle
  constructor
  · rw [hU]
  · have hlen := framesTraj_length acts s s' h
    have hu_fut : (undoN acts.length s').history.future
        = framesTraj acts s ++ s'.history.future := by rw [hU]
    have hR := redoN_consume (framesTraj acts s) s'.history.future
      (undoN acts.length s') hu_fut
    rw [hlen] at hR
    rw [hR]
    have hugoal : (undoN acts.length s').store.frames = s.store.frames := by
      rw [hU]
    show ((framesTraj acts s).getLast?).getD (undoN acts.length s').store.frames
      = s'.store.frames
    rw [hugoal]
    exact framesTraj_getLast acts s s' h

set_option maxRecDepth 100000 in
/-- C2 as stated is refuted by the history cap: 51 successful `addFrame`
actions from the empty model and empty history, followed by 51 `undo()`
calls, leave one frame — not the empty starting list — because the 51st push
evicted the oldest snapshot. -/
theorem undo_roundtrip_cex :
    (applyActions (List.replicate 51 cexAct) cexStart).map
        (fun s => (undoN 51 s).store.frames.length) = some 1 ∧
    cexStart.store.frames.length = 0 :=
  ⟨rfl, rfl⟩

/-- Witness for `undo_redo_roundtrip`: one action, one undo, one redo. -/
theorem undo_redo_roundtrip_witness :
    applyActions [cexAct] cexStart = some wState ∧
    (undoN 1 wState).store.frames = cexStart.store.frames ∧
    (redoN 1 (undoN 1 wState)).store.frames = wState.store.frames :=
  ⟨rfl,
   (undo_redo_roundtrip [cexAct] cexStart wState rfl (by decide)).1,
   (undo_redo_roundtrip [cexAct] cexStart wState rfl (by decide)).2⟩

/-! ## C6: group/ungroup round-trip -/

theorem findLayer_cons_none {x : String} {d : LayerData}
    {cs : Option (List Layer)} {rest : List Layer}
    (h : findLayer x (Layer.mk d cs :: rest) = none) :
    (d.id == x) = false ∧
    (∀ children, cs = some children → findLayer x children = none) ∧
    findLayer x rest = none := by
  cases cs with
  | none =>
    rw [findLayer.eq_3] at h
    by_cases hid : (d.id == x) = true
    · rw [if_pos hid] at h; exact absurd h (by simp)
    · have hid' : (d.id == x) = false := by simpa using hid
      rw [if_neg (by simp [hid'])] at h
      exact ⟨hid', ⟨fun c hc => (nomatch hc), h⟩⟩
  | some children =>
    rw [findLayer.eq_2] at h
    by_cases hid : (d.id == x) = true
    · rw [if_pos hid] at h; exact absurd h (by simp)
    · have hid' : (d.id == x) = false := by simpa using hid
      rw [if_neg (by simp [hid'])] at h
      cases hfc : findLayer x children with
      | some found => rw [hfc] at h; exact absurd h (by simp)
      | none =>
        rw [hfc] at h
        exact ⟨hid', fun c hc => (Option.some.inj hc) ▸ hfc, h⟩

theorem findLayer_cons_none_of (x : String) (d : LayerData)
    (cs : Option (List Layer)) (rest : List Layer)
    (hid : (d.id == x) = false)
    (hcs : ∀ children, cs = some children → findLayer x children = none)
    (hrest : findLayer x rest = none) :
    findLayer x (Layer.mk d cs :: rest) = none := by
  cases cs with
  | none =>
    rw [findLayer.eq_3, if_neg (by simp [hid])]
    exact hrest
  | some children =>
    rw [findLayer.eq_2, if_neg (by simp [hid]), hcs children rfl]
    exact hrest

theorem findLayer_none_sublist {x : String} {ls' ls : List Layer}
    (hsub : List.Sublist ls' ls) :
    findLayer x ls = none → findLayer x ls' = none := by
  induction hsub with
  | slnil => intro _; rw [findLayer.eq_1]
  | cons l _ ih =>
    intro h
    cases l with
    | mk d cs => exact ih (findLayer_cons_none h).2.2
  | cons₂ l _ ih =>
    intro h
    cases l with
    | mk d cs =>
      obtain ⟨h1, h2, h3⟩ := findLayer_cons_none h
      exact findLayer_cons_none_of x d cs _ h1 h2 (ih h3)

theorem findLayer_none_top_ids {x : String} {ls : List Layer}
    (h : findLayer x ls = none) : ∀ l ∈ ls, (l.id == x) = false := by
  induction ls with
  | nil => intro l hl; exact absurd hl (by simp)
  | cons l0 rest ih =>
    intro l hl
    cases l0 with
    | mk d cs =>
      obtain ⟨h1, _, h3⟩ := findLayer_cons_none h
      rcases List.mem_cons.1 hl with he | hm
      · subst he; exact h1
      · exact ih h3 l hm

/-- `findLayer` finds the head of the appended segment when the prefix is
free of the id. -/
theorem findLayer_append_cons {x : String} {A : List Layer} (g : Layer)
    (B : List Layer) (hA : findLayer x A = none) (hg : (g.id == x) = true) :
    findLayer x (A ++ g :: B) = some g := by
  induction A with
  | nil =>
    rw [List.nil_append]
    cases g with
    | mk d cs =>
      have hg' : (d.id == x) = true := hg
      cases cs with
      | none => rw [findLayer.eq_3, if_pos hg']
      | some children => rw [findLayer.eq_2, if_pos hg']
  | cons a A ih =>
    cases a with
    | mk d cs =>
      obtain ⟨h1, h2, h3⟩ := findLayer_cons_none hA
      have ihh := ih h3
      cases cs with
      | none =>
        rw [List.cons_append, findLayer.eq_3, if_neg (by simp [h1])]
        exact ihh
      | some children =>
        rw [List.cons_append, findLayer.eq_2, if_neg (by simp [h1]),
          h2 children rfl]
        exact ihh

theorem findIdx?_append_cons {α : Type} {p : α → Bool} (A : List α) (g : α)
    (B : List α) (hA : ∀ a ∈ A, p a = false) (hg : p g = true) :
    ∀ i, List.findIdx? p (A ++ g :: B) i = some (A.length + i) := by
  induction A with
  | nil =>
    intro i
    rw [List.nil_append, List.findIdx?_cons, hg]
    simp
  | cons a A ih =>
    intro i
    have ha : p a = false := hA a (List.mem_cons_self a A)
    rw [List.cons_append, List.findIdx?_cons, ha]
    simp only [Bool.false_eq_true, if_neg, not_false_iff]
    rw [ih (fun a h => hA a (List.mem_cons_of_mem _ h)) (i + 1)]
    congr 1
    simp only [List.length_cons]
    omega

theorem jsFindIndex_append_cons {α : Type} {p : α → Bool} (A : List α) (g : α)
    (B : List α) (hA : ∀ a ∈ A, p a = false) (hg : p g = true) :
    jsFindIndex p (A ++ g :: B) = (A.length : Int) := by
  unfold jsFindIndex
  rw [findIdx?_append_cons A g B hA hg 0]
  simp

theorem jsSpliceReplace_at_length {α : Type} (A : List α) (g : α) (B : List α)
    (items : List α) :
    jsSpliceReplace (A ++ g :: B) (A.length : Int) items = A ++ items ++ B := by
  unfold jsSpliceReplace jsSpliceIndex
  rw [if_neg (by omega)]
  have htn : (A.length : Int).toNat = A.length := Int.toNat_natCast A.length
  have hmin : min (A.length : Int).toNat (A ++ g :: B).length = A.length := by
    rw [htn]
    simp [List.length_append]
  rw [hmin]
  simp only []
  rw [List.take_left A (g :: B), List.drop_append 1, List.drop_one]
  rfl

/-- Success characterization of `groupLayers`: with an existing frame and at
least two resolved layers it pushes history and splices the group in. -/
theorem groupLayers_ok (s : AppState) (fid : String) (lids : List String)
    (gid now : String) (f : Frame)
    (hf : getFrame s.store fid = some f)
    (hlen : 2 ≤ lids.length)
    (hres : 2 ≤ (layersToGroupOf f lids).length) :
    groupLayers fid lids gid now s = Except.ok (gid,
      { store :=
          { s.store with
              frames := s.store.frames.map (fun fr =>
                if !(fr.id == fid) then fr
                else
                  { fr with
                      layers := jsSpliceInsert
                        (fr.layers.filter (fun l => !(lids.contains l.id)))
                        (jsFindIndex (fun l => l.id == lids.headD "") fr.layers)
                        (groupLayerOf f lids gid)
                      updatedAt := now })
              selectedLayerIds := [gid] }
        history := pushState s.store.frames s.history }) := by
  unfold groupLayers
  simp only []
  rw [hf]
  rw [if_neg (by simp only [Option.isNone_some, Bool.false_or,
    decide_eq_true_eq]; omega)]
  simp only []
  rw [if_neg (by omega)]

/-- Success characterization of `ungroupLayers`: with the group found, of
type `group` and carrying children, it pushes history and splices the
children (restored to frame coordinates) in place of the group. -/
theorem ungroupLayers_ok (s : AppState) (fid gid now2 : String) (g : Layer)
    (f0 : Frame) (hf : getFrame s.store fid = some f0)
    (hg : getLayer s.store fid gid = some g)
    (cs : List Layer) (hcs : g.children = some cs)
    (hty : (g.data.ty == "group") = true) :
    ungroupLayers fid gid now2 s = Except.ok
      { store :=
          { s.store with
              frames := s.store.frames.map (fun fr =>
                if !(fr.id == fid) then fr
                else
                  { fr with
                      layers := jsSpliceReplace fr.layers
                        (jsFindIndex (fun l => l.id == gid) fr.layers)
                        (ungroupedLayersOf g)
                      updatedAt := now2 })
              selectedLayerIds := (ungroupedLayersOf g).map (fun l => l.id) }
        history := pushState s.store.frames s.history } := by
  unfold ungroupLayers
  rw [hf, hg]
  simp only []
  rw [if_neg (by simp [hty])]
  rw [hcs]

set_option maxHeartbeats 1000000 in
/-- C6: grouping at least two resolved layers and immediately ungrouping the
returned group restores the frame's grouped layers exactly (same records, so
in particular the same frame-relative x and y): the final frame's layer list
contains the originally resolved layers as a contiguous segment, each equal
to its original. -/
theorem group_ungroup_roundtrip (s : AppState) (fid : String)
    (lids : List String) (gid now now2 : String) (f : Frame)
    (hf : getFrame s.store fid = some f)
    (hfresh : findLayer gid f.layers = none)
    (hlen : 2 ≤ lids.length)
    (hres : 2 ≤ (layersToGroupOf f lids).length) :
    ∃ s' s'' f'' pre post,
      groupLayers fid lids gid now s = Except.ok (gid, s') ∧
      ungroupLayers fid gid now2 s' = Except.ok s'' ∧
      getFrame s''.store fid = some f'' ∧
      f''.layers = pre ++ layersToGroupOf f lids ++ post := by
  have hfid0 := List.find?_some
    (show List.find? (fun fr : Frame => fr.id == fid) s.store.frames = some f from hf)
  have hfid : (f.id == fid) = true := hfid0
  have hG := groupLayers_ok s fid lids gid now f hf hlen hres
  -- the transformed frame after grouping
  have hglid : ((groupLayerOf f lids gid).id == gid) = true := by
    have : (groupLayerOf f lids gid).id = gid := rfl
    rw [this]
    exact beq_self_eq_true gid
  have hsubA : List.Sublist
      ((f.layers.filter (fun l : Layer => !(lids.contains l.id))).take
        (jsSpliceIndex (f.layers.filter (fun l : Layer => !(lids.contains l.id))).length
          (jsFindIndex (fun l : Layer => l.id == lids.headD "") f.layers)))
      f.layers :=
    List.Sublist.trans (List.take_sublist _ _) (List.filter_sublist f.layers)
  have hsubB : List.Sublist
      ((f.layers.filter (fun l : Layer => !(lids.contains l.id))).drop
        (jsSpliceIndex (f.layers.filter (fun l : Layer => !(lids.contains l.id))).length
          (jsFindIndex (fun l : Layer => l.id == lids.headD "") f.layers)))
      f.layers :=
    List.Sublist.trans (List.drop_sublist _ _) (List.filter_sublist f.layers)
  have hA : findLayer gid
      ((f.layers.filter (fun l : Layer => !(lids.contains l.id))).take
        (jsSpliceIndex (f.layers.filter (fun l : Layer => !(lids.contains l.id))).length
          (jsFindIndex (fun l : Layer => l.id == lids.headD "") f.layers)))
      = none := findLayer_none_sublist hsubA hfresh
  -- the grouped state and the frame it holds
  have htr_id : ∀ fr : Frame,
      ((fun fr : Frame => if !(fr.id == fid) then fr
        else
          { fr with
              layers := jsSpliceInsert
                (fr.layers.filter (fun l : Layer => !(lids.contains l.id)))
                (jsFindIndex (fun l : Layer => l.id == lids.headD "") fr.layers)
                (groupLayerOf f lids gid)
              updatedAt := now }) fr).id = fr.id := by
    intro fr
    by_cases hh : (fr.id == fid) = true <;> simp [hh]
  have hf' : getFrame
      { s.store with
          frames := s.store.frames.map (fun fr : Frame =>
            if !(fr.id == fid) then fr
            else
              { fr with
                  layers := jsSpliceInsert
                    (fr.layers.filter (fun l : Layer => !(lids.contains l.id)))
                    (jsFindIndex (fun l : Layer => l.id == lids.headD "") fr.layers)
                    (groupLayerOf f lids gid)
                  updatedAt := now })
          selectedLayerIds := [gid] } fid
      = some { f with
          layers := jsSpliceInsert
            (f.layers.filter (fun l : Layer => !(lids.contains l.id)))
            (jsFindIndex (fun l : Layer => l.id == lids.headD "") f.layers)
            (groupLayerOf f lids gid)
          updatedAt := now } := by
    show List.find? (fun fr : Frame => fr.id == fid)
        (s.store.frames.map (fun fr : Frame =>
          if !(fr.id == fid) then fr
          else
            { fr with
                layers := jsSpliceInsert
                  (fr.layers.filter (fun l : Layer => !(lids.contains l.id)))
                  (jsFindIndex (fun l : Layer => l.id == lids.headD "") fr.layers)
                  (groupLayerOf f lids gid)
                updatedAt := now })) = _
    rw [find?_map_id_preserving s.store.frames fid _ htr_id]
    rw [show List.find? (fun fr : Frame => fr.id == fid) s.store.frames = some f from hf]
    simp only [Option.map]
    rw [if_neg (by simp [hfid])]
  have hfl := findLayer_append_cons (groupLayerOf f lids gid)
    ((f.layers.filter (fun l : Layer => !(lids.contains l.id))).drop
      (jsSpliceIndex (f.layers.filter (fun l : Layer => !(lids.contains l.id))).length
        (jsFindIndex (fun l : Layer => l.id == lids.headD "") f.layers)))
    hA hglid
  have hgl' : getLayer
      { s.store with
          frames := s.store.frames.map (fun fr : Frame =>
        if !(fr.id == fid) then fr
        else
          { fr with
              layers := jsSpliceInsert
                (fr.layers.filter (fun l : Layer => !(lids.contains l.id)))
                (jsFindIndex (fun l : Layer => l.id == lids.headD "") fr.layers)
                (groupLayerOf f lids gid)
              updatedAt := now })
          selectedLayerIds := [gid] } fid gid = some (groupLayerOf f lids gid) := by
    unfold getLayer
    rw [hf']
    exact hfl
  have hchildren : (groupLayerOf f lids gid).children = some ((layersToGroupOf f lids).map (fun l : Layer =>
      Layer.mk
        { l.data with
            x := l.data.x - intMin ((layersToGroupOf f lids).map (fun l : Layer => l.x))
            y := l.data.y - intMin ((layersToGroupOf f lids).map (fun l : Layer => l.y)) }
        l.children)) := rfl
  have hty : ((groupLayerOf f lids gid).data.ty == "group") = true := rfl
  have hU := ungroupLayers_ok
    { store :=
        { s.store with
            frames := s.store.frames.map (fun fr : Frame =>
        if !(fr.id == fid) then fr
        else
          { fr with
              layers := jsSpliceInsert
                (fr.layers.filter (fun l : Layer => !(lids.contains l.id)))
                (jsFindIndex (fun l : Layer => l.id == lids.headD "") fr.layers)
                (groupLayerOf f lids gid)
              updatedAt := now })
            selectedLayerIds := [gid] }
      history := pushState s.store.frames s.history }
    fid gid now2 (groupLayerOf f lids gid) { f with
        layers := jsSpliceInsert
          (f.layers.filter (fun l : Layer => !(lids.contains l.id)))
          (jsFindIndex (fun l : Layer => l.id == lids.headD "") f.layers)
          (groupLayerOf f lids gid)
        updatedAt := now } hf' hgl' ((layersToGroupOf f lids).map (fun l : Layer =>
      Layer.mk
        { l.data with
            x := l.data.x - intMin ((layersToGroupOf f lids).map (fun l : Layer => l.x))
            y := l.data.y - intMin ((layersToGroupOf f lids).map (fun l : Layer => l.y)) }
        l.children)) hchildren hty
  have htr2_id : ∀ fr : Frame, ((fun fr : Frame =>
        if !(fr.id == fid) then fr
        else
          { fr with
              layers := jsSpliceReplace fr.layers
                (jsFindIndex (fun l : Layer => l.id == gid) fr.layers)
                (ungroupedLayersOf (groupLayerOf f lids gid))
              updatedAt := now2 }) fr).id = fr.id := by
    intro fr
    by_cases hh : (fr.id == fid) = true <;> simp [hh]
  have hAids : ∀ a ∈ ((f.layers.filter (fun l : Layer => !(lids.contains l.id))).take (jsSpliceIndex (f.layers.filter (fun l : Layer => !(lids.contains l.id))).length (jsFindIndex (fun l : Layer => l.id == lids.headD "") f.layers))), (a.id == gid) = false :=
    findLayer_none_top_ids hA
  have hidx : jsFindIndex (fun l : Layer => l.id == gid)
      (((f.layers.filter (fun l : Layer => !(lids.contains l.id))).take (jsSpliceIndex (f.layers.filter (fun l : Layer => !(lids.contains l.id))).length (jsFindIndex (fun l : Layer => l.id == lids.headD "") f.layers))) ++ (groupLayerOf f lids gid) :: ((f.layers.filter (fun l : Layer => !(lids.contains l.id))).drop (jsSpliceIndex (f.layers.filter (fun l : Layer => !(lids.contains l.id))).length (jsFindIndex (fun l : Layer => l.id == lids.headD "") f.layers)))) = ((((f.layers.filter (fun l : Layer => !(lids.contains l.id))).take (jsSpliceIndex (f.layers.filter (fun l : Layer => !(lids.contains l.id))).length (jsFindIndex (fun l : Layer => l.id == lids.headD "") f.layers)))).length : Int) :=
    jsFindIndex_append_cons ((f.layers.filter (fun l : Layer => !(lids.contains l.id))).take (jsSpliceIndex (f.layers.filter (fun l : Layer => !(lids.contains l.id))).length (jsFindIndex (fun l : Layer => l.id == lids.headD "") f.layers))) (groupLayerOf f lids gid) ((f.layers.filter (fun l : Layer => !(lids.contains l.id))).drop (jsSpliceIndex (f.layers.filter (fun l : Layer => !(lids.contains l.id))).length (jsFindIndex (fun l : Layer => l.id == lids.headD "") f.layers))) hAids hglid
  have hrep : jsSpliceReplace (((f.layers.filter (fun l : Layer => !(lids.contains l.id))).take (jsSpliceIndex (f.layers.filter (fun l : Layer => !(lids.contains l.id))).length (jsFindIndex (fun l : Layer => l.id == lids.headD "") f.layers))) ++ (groupLayerOf f lids gid) :: ((f.layers.filter (fun l : Layer => !(lids.contains l.id))).drop (jsSpliceIndex (f.layers.filter (fun l : Layer => !(lids.contains l.id))).length (jsFindIndex (fun l : Layer => l.id == lids.headD "") f.layers))))
      ((((f.layers.filter (fun l : Layer => !(lids.contains l.id))).take (jsSpliceIndex (f.layers.filter (fun l : Layer => !(lids.contains l.id))).length (jsFindIndex (fun l : Layer => l.id == lids.headD "") f.layers)))).length : Int) (ungroupedLayersOf (groupLayerOf f lids gid)) = ((f.layers.filter (fun l : Layer => !(lids.contains l.id))).take (jsSpliceIndex (f.layers.filter (fun l : Layer => !(lids.contains l.id))).length (jsFindIndex (fun l : Layer => l.id == lids.headD "") f.layers))) ++ (ungroupedLayersOf (groupLayerOf f lids gid)) ++ ((f.layers.filter (fun l : Layer => !(lids.contains l.id))).drop (jsSpliceIndex (f.layers.filter (fun l : Layer => !(lids.contains l.id))).length (jsFindIndex (fun l : Layer => l.id == lids.headD "") f.layers))) :=
    jsSpliceReplace_at_length ((f.layers.filter (fun l : Layer => !(lids.contains l.id))).take (jsSpliceIndex (f.layers.filter (fun l : Layer => !(lids.contains l.id))).length (jsFindIndex (fun l : Layer => l.id == lids.headD "") f.layers))) (groupLayerOf f lids gid) ((f.layers.filter (fun l : Layer => !(lids.contains l.id))).drop (jsSpliceIndex (f.layers.filter (fun l : Layer => !(lids.contains l.id))).length (jsFindIndex (fun l : Layer => l.id == lids.headD "") f.layers))) (ungroupedLayersOf (groupLayerOf f lids gid))
  have hung : (ungroupedLayersOf (groupLayerOf f lids gid)) = (layersToGroupOf f lids) := by
    unfold ungroupedLayersOf
    rw [show (groupLayerOf f lids gid).children = some ((layersToGroupOf f lids).map (fun l : Layer =>
      Layer.mk
        { l.data with
            x := l.data.x - intMin ((layersToGroupOf f lids).map (fun l : Layer => l.x))
            y := l.data.y - intMin ((layersToGroupOf f lids).map (fun l : Layer => l.y)) }
        l.children)) from rfl]
    simp only [Option.getD]
    rw [List.map_map]
    conv_rhs => rw [← List.map_id (layersToGroupOf f lids)]
    apply List.map_congr_left
    intro l _
    cases l with
    | mk d c =>
      cases d
      simp [Function.comp, groupLayerOf, layersToGroupOf, Layer.x, Layer.y,
        Layer.data, Layer.children, Int.sub_add_cancel]
  have hf'' : getFrame
      { s.store with
          frames := (s.store.frames.map (fun fr : Frame =>
        if !(fr.id == fid) then fr
        else
          { fr with
              layers := jsSpliceInsert
                (fr.layers.filter (fun l : Layer => !(lids.contains l.id)))
                (jsFindIndex (fun l : Layer => l.id == lids.headD "") fr.layers)
                (groupLayerOf f lids gid)
              updatedAt := now })).map (fun fr : Frame =>
        if !(fr.id == fid) then fr
        else
          { fr with
              layers := jsSpliceReplace fr.layers
                (jsFindIndex (fun l : Layer => l.id == gid) fr.layers)
                (ungroupedLayersOf (groupLayerOf f lids gid))
              updatedAt := now2 })
          selectedLayerIds := (ungroupedLayersOf (groupLayerOf f lids gid)).map (fun l : Layer => l.id) } fid
      = some { f with
          layers := ((f.layers.filter (fun l : Layer => !(lids.contains l.id))).take (jsSpliceIndex (f.layers.filter (fun l : Layer => !(lids.contains l.id))).length (jsFindIndex (fun l : Layer => l.id == lids.headD "") f.layers))) ++ (layersToGroupOf f lids) ++ ((f.layers.filter (fun l : Layer => !(lids.contains l.id))).drop (jsSpliceIndex (f.layers.filter (fun l : Layer => !(lids.contains l.id))).length (jsFindIndex (fun l : Layer => l.id == lids.headD "") f.layers)))
          updatedAt := now2 } := by
    show List.find? (fun fr : Frame => fr.id == fid)
        ((s.store.frames.map (fun fr : Frame =>
        if !(fr.id == fid) then fr
        else
          { fr with
              layers := jsSpliceInsert
                (fr.layers.filter (fun l : Layer => !(lids.contains l.id)))
                (jsFindIndex (fun l : Layer => l.id == lids.headD "") fr.layers)
                (groupLayerOf f lids gid)
              updatedAt := now })).map (fun fr : Frame =>
        if !(fr.id == fid) then fr
        else
          { fr with
              layers := jsSpliceReplace fr.layers
                (jsFindIndex (fun l : Layer => l.id == gid) fr.layers)
                (ungroupedLayersOf (groupLayerOf f lids gid))
              updatedAt := now2 })) = _
    rw [find?_map_id_preserving _ fid _ htr2_id]
    rw [show List.find? (fun fr : Frame => fr.id == fid)
        (s.store.frames.map (fun fr : Frame =>
        if !(fr.id == fid) then fr
        else
          { fr with
              layers := jsSpliceInsert
                (fr.layers.filter (fun l : Layer => !(lids.contains l.id)))
                (jsFindIndex (fun l : Layer => l.id == lids.headD "") fr.layers)
                (groupLayerOf f lids gid)
              updatedAt := now })) = some { f with
        layers := jsSpliceInsert
          (f.layers.filter (fun l : Layer => !(lids.contains l.id)))
          (jsFindIndex (fun l : Layer => l.id == lids.headD "") f.layers)
          (groupLayerOf f lids gid)
        updatedAt := now } from hf']
    simp only [Option.map]
    congr 1
    show (if !(f.id == fid) then _ else _) = _
    rw [if_neg (by simp [hfid])]
    show { f with
        layers := jsSpliceReplace (((f.layers.filter (fun l : Layer => !(lids.contains l.id))).take (jsSpliceIndex (f.layers.filter (fun l : Layer => !(lids.contains l.id))).length (jsFindIndex (fun l : Layer => l.id == lids.headD "") f.layers))) ++ (groupLayerOf f lids gid) :: ((f.layers.filter (fun l : Layer => !(lids.contains l.id))).drop (jsSpliceIndex (f.layers.filter (fun l : Layer => !(lids.contains l.id))).length (jsFindIndex (fun l : Layer => l.id == lids.headD "") f.layers))))
          (jsFindIndex (fun l : Layer => l.id == gid) (((f.layers.filter (fun l : Layer => !(lids.contains l.id))).take (jsSpliceIndex (f.layers.filter (fun l : Layer => !(lids.contains l.id))).length (jsFindIndex (fun l : Layer => l.id == lids.headD "") f.layers))) ++ (groupLayerOf f lids gid) :: ((f.layers.filter (fun l : Layer => !(lids.contains l.id))).drop (jsSpliceIndex (f.layers.filter (fun l : Layer => !(lids.contains l.id))).length (jsFindIndex (fun l : Layer => l.id == lids.headD "") f.layers)))))
          (ungroupedLayersOf (groupLayerOf f lids gid))
        updatedAt := now2 } = _
    rw [hidx, hrep, hung]
  exact ⟨_, _, _, ((f.layers.filter (fun l : Layer => !(lids.contains l.id))).take (jsSpliceIndex (f.layers.filter (fun l : Layer => !(lids.contains l.id))).length (jsFindIndex (fun l : Layer => l.id == lids.headD "") f.layers))), ((f.layers.filter (fun l : Layer => !(lids.contains l.id))).drop (jsSpliceIndex (f.layers.filter (fun l : Layer => !(lids.contains l.id))).length (jsFindIndex (fun l : Layer => l.id == lids.headD "") f.layers))), hG, hU, hf'', rfl⟩

/-- Witness for C6: `group_ungroup_roundtrip` applied to the concrete frame
`exFrame` holding layers at (10, 20) and (50, 60), grouping `L1` and `L2`. -/
theorem group_ungroup_roundtrip_witness :
    getFrame exState.store "F1" = some exFrame ∧
    findLayer "G" exFrame.layers = none ∧
    2 ≤ (["L1", "L2"] : List String).length ∧
    2 ≤ (layersToGroupOf exFrame ["L1", "L2"]).length ∧
    (∃ s' s'' f'' pre post,
      groupLayers "F1" ["L1", "L2"] "G" "t1" exState = Except.ok ("G", s') ∧
      ungroupLayers "F1" "G" "t2" s' = Except.ok s'' ∧
      getFrame s''.store "F1" = some f'' ∧
      f''.layers = pre ++ layersToGroupOf exFrame ["L1", "L2"] ++ post) :=
  ⟨rfl, by simp [exFrame, mkLayer, findLayer], by decide, by decide,
    group_ungroup_roundtrip exState "F1" ["L1", "L2"] "G" "t1" "t2" exFrame
      rfl (by simp [exFrame, mkLayer, findLayer]) (by decide) (by decide)⟩

end ImageHack
